import Mathlib

/-!
# Tetris-avr: the `play_game` loop of `project.c` and the counters of `score.c`

A shallow embedding of the game loop scheduler.  The collaborators that
`play_game` calls (clock, buttons, serial port, board engine, terminal) are
a record of functions over an arbitrary world type `W`; every call that
`play_game` makes is appended to a ghost `trace`, so that statements such as
"lock-and-spawn is called once" or "no serial byte is consumed" can be read off
the result.

Machine integers are natural numbers or integers with explicit reductions:
`uint32_t` arithmetic is taken modulo `2 ^ 32`, `uint8_t` modulo `2 ^ 8`, and a
`char` is the signed 8-bit value of avr-gcc.  The sentinel `-1` of the source is
the integer `-1`.
-/

namespace Tetris

/-! ## Machine integers -/

/-- Number of values of a `uint32_t`. -/
def U32 : Nat := 2 ^ 32

/-- Number of values of a `uint16_t`. -/
def U16 : Nat := 2 ^ 16

/-- Number of values of a `uint8_t`. -/
def U8 : Nat := 2 ^ 8

/-- Conversion of the `int` returned by `fgetc` to the `char` it is stored in
(signed, 8 bits): the byte `0xFF` and `EOF` both become `-1`. -/
def toChar (c : Int) : Int := (c + 128) % 256 - 128

/-- ESCAPE_CHAR of `project.c` line 39. -/
def ESCAPE_CHAR : Int := 27

/-! ## Collaborators -/

/-- Direction argument of `attempt_move`. -/
inductive Move
  | MOVE_LEFT
  | MOVE_RIGHT
  deriving DecidableEq

/-- One call made by `play_game`, with the value it returned where it returns
one.  The trace of a run is the list of these in program order. -/
inductive Call
  | get_clock_ticks (t : Nat)
  | button_pushed (b : Int)
  | serial_input_available (r : Bool)
  | fgetc (c : Int)
  | attempt_move (d : Move) (r : Bool)
  | attempt_rotation (r : Bool)
  | attempt_drop_block_one_row (r : Bool)
  | fix_block_to_board_and_add_new_block (r : Bool)
  | init_game
  | clear_terminal
  | init_score
  | init_seven_seg
  | empty_button_queue
  | clear_serial_input_buffer
  | add_to_score (value : Nat)
  | hide_cursor
  | move_cursor (x y : Nat)
  | printf_score (v : Nat)
  | printf_rows (v : Nat)
  deriving DecidableEq

/-- The functions `play_game` calls that live outside `project.c` and
`score.c`, as functions on a world `W` (board, clock, queues, terminal).
Fallible board operations return their success flag. -/
structure Env (W : Type) where
  get_clock_ticks : W → Nat × W
  button_pushed : W → Int × W
  serial_input_available : W → Bool × W
  fgetc : W → Int × W
  attempt_move : Move → W → Bool × W
  attempt_rotation : W → Bool × W
  attempt_drop_block_one_row : W → Bool × W
  fix_block_to_board_and_add_new_block : W → Bool × W
  reset_board : W → W
  clear_terminal : W → W
  init_seven_seg : W → W
  empty_button_queue : W → W
  clear_serial_input_buffer : W → W
  hide_cursor : W → W
  move_cursor : Nat → Nat → W → W
  printf_score : Nat → W → W
  printf_rows : Nat → W → W

/-! ## State -/

/-- The statics of `score.c`, the locals of `play_game` that live across loop
iterations, the world of the collaborators, and the ghost trace. -/
structure State (W : Type) where
  score : Nat
  row_number : Nat
  last_drop_time : Nat
  characters_into_escape_sequence : Nat
  world : W
  trace : List Call

/-- The three input variables of one iteration after the polling step
(`project.c` lines 180-212). -/
structure Input where
  button : Int
  serial_input : Int
  escape_sequence_char : Int
  deriving DecidableEq

/-- How a piece of the loop body ends: the loop goes on, or `break` was
executed (GAME OVER). -/
inductive Outcome (W : Type)
  | playing (s : State W)
  | game_over (s : State W)

/-- State carried by an outcome. -/
def Outcome.state {W : Type} : Outcome W → State W
  | .playing s => s
  | .game_over s => s

/-- Whether the outcome is the `break` of the loop. -/
def Outcome.exited {W : Type} : Outcome W → Bool
  | .playing _ => false
  | .game_over _ => true

/-! ## score.c -/

/-- The function `init_score` of `score.c`: `score = 0`. -/
def init_score {W : Type} (s : State W) : State W := { s with score := 0 }

/-- The function `add_to_score` of `score.c`: `score += value` with a
`uint16_t` argument and a `uint32_t` accumulator. -/
def add_to_score {W : Type} (value : Nat) (s : State W) : State W :=
  { s with score := (s.score + value % U16) % U32 }

/-- The function `get_score` of `score.c`. -/
def get_score {W : Type} (s : State W) : Nat := s.score

/-- The function `init_row` of `score.c`: `row_number = 0`. -/
def init_row {W : Type} (s : State W) : State W := { s with row_number := 0 }

/-- The function `add_to_row` of `score.c`: `row_number += value`. -/
def add_to_row {W : Type} (value : Nat) (s : State W) : State W :=
  { s with row_number := (s.row_number + value % U16) % U32 }

/-- The function `get_row` of `score.c`. -/
def get_row {W : Type} (s : State W) : Nat := s.row_number

/-! ## project.c: play_game -/

/-- Lines 152-167: the speed factor from the current score, as the source
computes it, by five successive overriding tests. -/
def speed_factor {W : Type} (s : State W) : Nat :=
  let sf := 600
  let sf := if get_score s ≥ 100 then 500 else sf
  let sf := if get_score s ≥ 500 then 450 else sf
  let sf := if get_score s ≥ 800 then 350 else sf
  let sf := if get_score s ≥ 1000 then 300 else sf
  let sf := if get_score s ≥ 2000 then 200 else sf
  sf

/-- A call of a collaborator that returns nothing. -/
def effect {W : Type} (f : W → W) (c : Call) (s : State W) : State W :=
  { s with world := f s.world, trace := s.trace ++ [c] }

/-- Record a call together with the world it leaves. -/
def called {W : Type} (w : W) (c : Call) (s : State W) : State W :=
  { s with world := w, trace := s.trace ++ [c] }

/-- Lines 232-236 (repeated at 252-256, 267-271 and 288-292): refresh the
score and row display. -/
def print_score_and_rows {W : Type} (env : Env W) (s : State W) : State W :=
  let s := effect env.hide_cursor Call.hide_cursor s
  let s := effect (env.move_cursor 50 3) (Call.move_cursor 50 3) s
  let s := effect (env.printf_score (get_score s)) (Call.printf_score (get_score s)) s
  let s := effect (env.move_cursor 50 5) (Call.move_cursor 50 5) s
  effect (env.printf_rows (get_row s)) (Call.printf_rows (get_row s)) s

/-- The statement `last_drop_time = get_clock_ticks();` (lines 238, 257, 294). -/
def stamp_last_drop_time {W : Type} (env : Env W) (s : State W) : State W :=
  let r := env.get_clock_ticks s.world
  { called r.2 (Call.get_clock_ticks (r.1 % U32)) s with last_drop_time := r.1 % U32 }

/-- The call `add_to_score(1)` as made by `play_game`, recorded in the trace. -/
def score_one {W : Type} (s : State W) : State W :=
  let s := add_to_score 1 s
  { s with trace := s.trace ++ [Call.add_to_score 1] }

/-- The call `fix_block_to_board_and_add_new_block()` and the statements that
depend on it (lines 228-236, 248-256, 284-292): on failure `break`, otherwise
`add_to_score(1)` and the display refresh. -/
def lock_and_spawn {W : Type} (env : Env W) (s : State W) : Outcome W :=
  let f := env.fix_block_to_board_and_add_new_block s.world
  let s := called f.2 (Call.fix_block_to_board_and_add_new_block f.1) s
  if f.1 = false then Outcome.game_over s
  else Outcome.playing (print_score_and_rows env (score_one s))

/-- Lines 226-238, and again lines 282-294: one drop attempt; if it fails,
lock and spawn; unless the loop was left, stamp the drop time. -/
def drop_one_row_or_lock {W : Type} (env : Env W) (s : State W) : Outcome W :=
  let r := env.attempt_drop_block_one_row s.world
  let s := called r.2 (Call.attempt_drop_block_one_row r.1) s
  if r.1 = false then
    match lock_and_spawn env s with
    | Outcome.game_over s => Outcome.game_over s
    | Outcome.playing s => Outcome.playing (stamp_last_drop_time env s)
  else Outcome.playing (stamp_last_drop_time env s)

/-- Lines 243-247: `while(attempt_drop_block_one_row()==1)` whose body makes a
second drop attempt and ignores its result.  One unit of fuel per evaluation
of the loop condition; `none` when the fuel runs out. -/
def hard_drop_loop {W : Type} (env : Env W) : Nat → State W → Option (State W)
  | 0, _ => none
  | fuel + 1, s =>
    let r := env.attempt_drop_block_one_row s.world
    let s := called r.2 (Call.attempt_drop_block_one_row r.1) s
    if r.1 = true then
      let r2 := env.attempt_drop_block_one_row s.world
      let s := called r2.2 (Call.attempt_drop_block_one_row r2.1) s
      hard_drop_loop env fuel s
    else some s

/-- Lines 241-257: the hard-drop arm. -/
def hard_drop {W : Type} (env : Env W) (fuel : Nat) (s : State W) : Option (Outcome W) :=
  match hard_drop_loop env fuel s with
  | none => none
  | some s =>
    match lock_and_spawn env s with
    | Outcome.game_over s => some (Outcome.game_over s)
    | Outcome.playing s => some (Outcome.playing (stamp_last_drop_time env s))

/-- The arms of the `if`/`else if` chain of lines 215-258. -/
inductive Action
  | move_left
  | move_right
  | rotate
  | soft_drop
  | hard_drop
  | none
  deriving DecidableEq

/-- The tests of the chain of lines 215, 218, 221, 224 and 240, in order. -/
def selected_action (i : Input) : Action :=
  if i.button = 3 ∨ i.escape_sequence_char = 68 then Action.move_left
  else if i.button = 0 ∨ i.escape_sequence_char = 67 then Action.move_right
  else if i.button = 2 ∨ i.escape_sequence_char = 65 then Action.rotate
  else if i.escape_sequence_char = 66 then Action.soft_drop
  else if i.button = 1 ∨ i.serial_input = 32 then Action.hard_drop
  else Action.none

/-- The call `(void)attempt_move(d)`. -/
def do_move {W : Type} (env : Env W) (d : Move) (s : State W) : State W :=
  let r := env.attempt_move d s.world
  called r.2 (Call.attempt_move d r.1) s

/-- The call `(void)attempt_rotation()`. -/
def do_rotation {W : Type} (env : Env W) (s : State W) : State W :=
  let r := env.attempt_rotation s.world
  called r.2 (Call.attempt_rotation r.1) s

/-- The bodies of the arms of the chain of lines 215-258. -/
def run_action {W : Type} (env : Env W) (fuel : Nat) (a : Action) (s : State W) :
    Option (Outcome W) :=
  match a with
  | Action.move_left => some (Outcome.playing (do_move env Move.MOVE_LEFT s))
  | Action.move_right => some (Outcome.playing (do_move env Move.MOVE_RIGHT s))
  | Action.rotate => some (Outcome.playing (do_rotation env s))
  | Action.soft_drop => some (drop_one_row_or_lock env s)
  | Action.hard_drop => hard_drop env fuel s
  | Action.none => some (Outcome.playing s)

/-- Lines 215-258: process the input. -/
def dispatch {W : Type} (env : Env W) (fuel : Nat) (i : Input) (s : State W) :
    Option (Outcome W) :=
  run_action env fuel (selected_action i) s

/-- The test of line 260. -/
def new_game_requested (i : Input) : Bool :=
  decide (i.serial_input = 110 ∨ i.serial_input = 78)

/-- Modelled from the spec: `init_game` of `game.c`, which is not among the
sources.  The spec has a new-game request "reset board, score, row count,
input buffers" and makes the board collaborator the owner of the row count;
`play_game` itself resets the score and the input buffers only, so the reset
of the board and of the row count (`init_row`) is placed here. -/
def init_game {W : Type} (env : Env W) (s : State W) : State W :=
  init_row (effect env.reset_board Call.init_game s)

/-- Lines 261-271: the body of the new-game test. -/
def restart_game {W : Type} (env : Env W) (s : State W) : State W :=
  let s := init_game env s
  let s := effect env.clear_terminal Call.clear_terminal s
  let s := { init_score s with trace := s.trace ++ [Call.init_score] }
  let s := effect env.init_seven_seg Call.init_seven_seg s
  let s := effect env.empty_button_queue Call.empty_button_queue s
  let s := effect env.clear_serial_input_buffer Call.clear_serial_input_buffer s
  print_score_and_rows env s

/-- Lines 260-273. -/
def handle_new_game {W : Type} (env : Env W) (i : Input) (s : State W) : State W :=
  if new_game_requested i = true then restart_game env s else s

/-- Lines 180-212: poll the buttons, then the serial port, and run the
escape-sequence parser on the byte read.  (The assignment `game_loaded = 1` of
line 183 writes a static that nothing in `play_game` reads.) -/
def poll_input {W : Type} (env : Env W) (s : State W) : Input × State W :=
  let b := env.button_pushed s.world
  let s := called b.2 (Call.button_pushed b.1) s
  let button := b.1
  if button = -1 then
    let a := env.serial_input_available s.world
    let s := called a.2 (Call.serial_input_available a.1) s
    if a.1 = true then
      let c := env.fgetc s.world
      let s := called c.2 (Call.fgetc c.1) s
      let serial_input := toChar c.1
      if s.characters_into_escape_sequence = 0 ∧ serial_input = ESCAPE_CHAR then
        (⟨button, -1, -1⟩,
          { s with characters_into_escape_sequence :=
              (s.characters_into_escape_sequence + 1) % U8 })
      else if s.characters_into_escape_sequence = 1 ∧ serial_input = 91 then
        (⟨button, -1, -1⟩,
          { s with characters_into_escape_sequence :=
              (s.characters_into_escape_sequence + 1) % U8 })
      else if s.characters_into_escape_sequence = 2 then
        (⟨button, -1, serial_input⟩, { s with characters_into_escape_sequence := 0 })
      else
        (⟨button, serial_input, -1⟩, { s with characters_into_escape_sequence := 0 })
    else (⟨button, -1, -1⟩, s)
  else (⟨button, -1, -1⟩, s)

/-- Lines 279-295: the timer check.  The deadline `last_drop_time +
speed_factor` is a `uint32_t` sum. -/
def gravity {W : Type} (env : Env W) (sf : Nat) (s : State W) : Outcome W :=
  let t := env.get_clock_ticks s.world
  let now := t.1 % U32
  let s := called t.2 (Call.get_clock_ticks now) s
  if now ≥ (s.last_drop_time + sf) % U32 then drop_one_row_or_lock env s
  else Outcome.playing s

/-- Lines 151-167: read the clock into `current_time` (not used afterwards)
and compute the speed factor. -/
def read_clock {W : Type} (env : Env W) (s : State W) : State W :=
  let t := env.get_clock_ticks s.world
  called t.2 (Call.get_clock_ticks (t.1 % U32)) s

/-- Lines 214-273: the dispatch chain followed by the new-game test. -/
def process_input {W : Type} (env : Env W) (fuel : Nat) (i : Input) (s : State W) :
    Option (Outcome W) :=
  match dispatch env fuel i s with
  | none => none
  | some (Outcome.game_over s) => some (Outcome.game_over s)
  | some (Outcome.playing s) => some (Outcome.playing (handle_new_game env i s))

/-- Lines 150-295: one iteration of the `while(1)` loop of `play_game`. -/
def loop_body {W : Type} (env : Env W) (fuel : Nat) (s : State W) : Option (Outcome W) :=
  let s := read_clock env s
  let sf := speed_factor s
  let p := poll_input env s
  match process_input env fuel p.1 p.2 with
  | none => none
  | some (Outcome.game_over s) => some (Outcome.game_over s)
  | some (Outcome.playing s) => some (gravity env sf s)

/-! ## A small concrete world, used to run the definitions -/

/-- A world for executing the model: a fixed clock reading, queues of pending
button pushes and serial bytes, the number of rows the falling piece can still
drop, and whether the next spawn has room. -/
structure Sim where
  clock : Nat
  buttons : List Int
  serial : List Int
  height : Nat
  room : Bool
  deriving DecidableEq

/-- The collaborators over `Sim`. -/
def simEnv : Env Sim where
  get_clock_ticks w := (w.clock, w)
  button_pushed w :=
    match w.buttons with
    | [] => (-1, w)
    | b :: bs => (b, { w with buttons := bs })
  serial_input_available w := (!w.serial.isEmpty, w)
  fgetc w :=
    match w.serial with
    | [] => (-1, w)
    | c :: cs => (c, { w with serial := cs })
  attempt_move _ w := (true, w)
  attempt_rotation w := (true, w)
  attempt_drop_block_one_row w :=
    if 0 < w.height then (true, { w with height := w.height - 1 }) else (false, w)
  fix_block_to_board_and_add_new_block w := (w.room, { w with height := 3 })
  reset_board w := { w with height := 3 }
  clear_terminal w := w
  init_seven_seg w := w
  empty_button_queue w := { w with buttons := [] }
  clear_serial_input_buffer w := { w with serial := [] }
  hide_cursor w := w
  move_cursor _ _ w := w
  printf_score _ w := w
  printf_rows _ w := w

/-- A `Sim` state of the loop. -/
def simState (score last cies : Nat) (w : Sim) : State Sim :=
  ⟨score, 0, last, cies, w, []⟩

/-! ## The speed table as the spec words it -/

/-- The step table of the spec, section 4.3. -/
def speed_table (s : Nat) : Nat :=
  if s < 100 then 600
  else if s < 500 then 500
  else if s < 800 then 450
  else if s < 1000 then 350
  else if s < 2000 then 300
  else 200

/-! ## Vocabulary of the statements -/

/-- In the polling step started in state `s` no button is pending, a serial
byte is available, and `fgetc` returns `b`. -/
def serial_byte_read {W : Type} (env : Env W) (s : State W) (b : Int) : Prop :=
  (env.button_pushed s.world).1 = -1 ∧
  (env.serial_input_available (env.button_pushed s.world).2).1 = true ∧
  (env.fgetc (env.serial_input_available (env.button_pushed s.world).2).2).1 = b

/-- The input variables of the loop iteration that starts in state `s`. -/
def iteration_input {W : Type} (env : Env W) (s : State W) : Input :=
  (poll_input env (read_clock env s)).1

/-- The byte `b` is what the iteration that starts in state `s` reads. -/
def byte_arrives {W : Type} (env : Env W) (s : State W) (b : Int) : Prop :=
  serial_byte_read env (read_clock env s) b

/-- The calls made between state `s` and the later state `t`. -/
def new_calls {W : Type} (s t : State W) : List Call :=
  t.trace.drop s.trace.length

/-- The event the spec assigns to the terminator of an escape sequence. -/
def terminator_event (t : Int) : Action :=
  if t = 65 then Action.rotate
  else if t = 66 then Action.soft_drop
  else if t = 67 then Action.move_right
  else if t = 68 then Action.move_left
  else Action.none

/-- The call is a one-row drop attempt. -/
def Call.is_drop : Call → Bool
  | Call.attempt_drop_block_one_row _ => true
  | _ => false

/-- The call is a lock-and-spawn. -/
def Call.is_lock : Call → Bool
  | Call.fix_block_to_board_and_add_new_block _ => true
  | _ => false

/-- The call is a score increment. -/
def Call.is_score : Call → Bool
  | Call.add_to_score _ => true
  | _ => false

/-- The call reads the serial port. -/
def Call.is_serial : Call → Bool
  | Call.serial_input_available _ => true
  | Call.fgetc _ => true
  | _ => false

/-- The board lets the piece fall as the measure `h` says: a drop attempt
above the resting position succeeds and lowers the piece by one row, and a
drop attempt at the resting position fails and leaves the world as it is. -/
def falls_by {W : Type} (env : Env W) (h : W → Nat) : Prop :=
  (∀ w, 0 < h w → (env.attempt_drop_block_one_row w).1 = true ∧
      h (env.attempt_drop_block_one_row w).2 + 1 = h w) ∧
  (∀ w, h w = 0 → env.attempt_drop_block_one_row w = (false, w))

/-- Sample: Idle parser, the bytes ESC, bracket, `A` queued on the serial port. -/
def escSample1 : State Sim := simState 0 0 0 ⟨0, [], [27, 91, 65], 5, true⟩

/-- Sample: the state one iteration after `escSample1`. -/
def escSample2 : State Sim :=
  ⟨0, 0, 0, 1, ⟨0, [], [91, 65], 5, true⟩,
    [Call.get_clock_ticks 0, Call.button_pushed (-1), Call.serial_input_available true,
      Call.fgetc 27, Call.get_clock_ticks 0]⟩

/-- Sample: the state two iterations after `escSample1`. -/
def escSample3 : State Sim :=
  ⟨0, 0, 0, 2, ⟨0, [], [65], 5, true⟩,
    [Call.get_clock_ticks 0, Call.button_pushed (-1), Call.serial_input_available true,
      Call.fgetc 27, Call.get_clock_ticks 0,
      Call.get_clock_ticks 0, Call.button_pushed (-1), Call.serial_input_available true,
      Call.fgetc 91, Call.get_clock_ticks 0]⟩

/-- Sample: the clock is 50 ticks past a drop time that lies 100 ticks before
the wrap of the 32-bit counter. -/
def wrapSample : State Sim :=
  simState 0 4294967196 0 ⟨4294967246, [], [], 5, true⟩

/-- The call is neither a lock-and-spawn nor a score increment. -/
def Call.is_plain (c : Call) : Bool := !c.is_lock && !c.is_score

/-- The lock discipline of a run of calls that ended with exit flag `e`: the
loop was left exactly when a lock-and-spawn call failed, that call is then the
last one, and there are as many score increments as successful lock-and-spawn
calls. -/
def lock_discipline (e : Bool) (l : List Call) : Prop :=
  (e = true ↔ Call.fix_block_to_board_and_add_new_block false ∈ l) ∧
  (e = true → l.getLast? = some (Call.fix_block_to_board_and_add_new_block false)) ∧
  l.countP Call.is_score = l.count (Call.fix_block_to_board_and_add_new_block true)

/-- State `t` continues the trace of `s` by a run of calls with property `P`. -/
def continues {W : Type} (P : List Call → Prop) (s t : State W) : Prop :=
  ∃ l, t.trace = s.trace ++ l ∧ P l

/-- Every call of the run is plain. -/
def all_plain (l : List Call) : Prop := ∀ c ∈ l, c.is_plain = true

/-- Sample: a session with score 123 and 7 completed rows. -/
def midSession : State Sim := ⟨123, 7, 0, 0, ⟨0, [], [110], 2, true⟩, []⟩

/-! ## project.c: play_game, entry and loop -/

/-- Lines 134-143: entry of `play_game`.  The parser counter starts at 0 and
the last drop time is the clock value read on entry. -/
def play_game_enter {W : Type} (env : Env W) (s : State W) : State W :=
  let t := env.get_clock_ticks s.world
  { called t.2 (Call.get_clock_ticks (t.1 % U32)) s with
    last_drop_time := t.1 % U32
    characters_into_escape_sequence := 0 }

/-- Lines 149-296: the `while(1)` loop, run for at most `n` iterations; it
stops early at the `break`. -/
def iterate_loop {W : Type} (env : Env W) (fuel : Nat) : Nat → State W → Option (Outcome W)
  | 0, s => some (Outcome.playing s)
  | n + 1, s =>
    match loop_body env fuel s with
    | none => none
    | some (Outcome.game_over t) => some (Outcome.game_over t)
    | some (Outcome.playing t) => iterate_loop env fuel n t

/-! ## Further vocabulary -/

/-- The call consumes a serial byte. -/
def Call.is_fgetc : Call → Bool
  | Call.fgetc _ => true
  | _ => false

/-- State `t` continues `s` by a run with at most `n` successful lock-and-spawn
calls, and its score is the score of `s` plus the number of them, as a
`uint32_t`. -/
def tracks {W : Type} (n : Nat) (s t : State W) : Prop :=
  ∃ l, t.trace = s.trace ++ l ∧
    l.count (Call.fix_block_to_board_and_add_new_block true) ≤ n ∧
    (s.score < U32 →
      t.score = (s.score + l.count (Call.fix_block_to_board_and_add_new_block true)) % U32)

/-- Sample: a piece three rows above its resting position, a space queued. -/
def threeUp : State Sim := simState 0 0 0 ⟨0, [], [32], 3, true⟩

/-! ## C1 -/

/-- C1: for every state, the speed factor computed at the top of an iteration
is the step table of the spec applied to the score. -/
theorem speed_factor_eq_table {W : Type} (s : State W) :
    speed_factor s = speed_table (get_score s) := by
  unfold speed_factor speed_table
  simp only [ge_iff_le]
  split_ifs <;> first | rfl | omega

/-! ## Frame lemmas: what the pieces of the loop body leave alone -/

theorem called_cies {W : Type} (w : W) (c : Call) (s : State W) :
    (called w c s).characters_into_escape_sequence = s.characters_into_escape_sequence := rfl

theorem print_cies {W : Type} (env : Env W) (s : State W) :
    (print_score_and_rows env s).characters_into_escape_sequence =
      s.characters_into_escape_sequence := rfl

theorem stamp_cies {W : Type} (env : Env W) (s : State W) :
    (stamp_last_drop_time env s).characters_into_escape_sequence =
      s.characters_into_escape_sequence := rfl

theorem lock_and_spawn_cies {W : Type} (env : Env W) (s : State W) :
    (lock_and_spawn env s).state.characters_into_escape_sequence =
      s.characters_into_escape_sequence := by
  unfold lock_and_spawn
  dsimp only
  split_ifs <;> rfl

theorem drop_one_row_or_lock_cies {W : Type} (env : Env W) (s : State W) :
    (drop_one_row_or_lock env s).state.characters_into_escape_sequence =
      s.characters_into_escape_sequence := by
  unfold drop_one_row_or_lock
  dsimp only
  split_ifs
  · have h := lock_and_spawn_cies env
      (called (env.attempt_drop_block_one_row s.world).2
        (Call.attempt_drop_block_one_row (env.attempt_drop_block_one_row s.world).1) s)
    generalize lock_and_spawn env
      (called (env.attempt_drop_block_one_row s.world).2
        (Call.attempt_drop_block_one_row (env.attempt_drop_block_one_row s.world).1) s) = r at h
    cases r <;> exact h
  · rfl

theorem hard_drop_loop_cies {W : Type} (env : Env W) :
    ∀ (fuel : Nat) (s t : State W), hard_drop_loop env fuel s = some t →
      t.characters_into_escape_sequence = s.characters_into_escape_sequence
  | 0, s, t, h => by simp [hard_drop_loop] at h
  | fuel + 1, s, t, h => by
    unfold hard_drop_loop at h
    dsimp only at h
    split_ifs at h
    · exact (hard_drop_loop_cies env fuel _ t h).trans rfl
    · cases h; rfl

theorem hard_drop_cies {W : Type} (env : Env W) (fuel : Nat) (s : State W) (o : Outcome W)
    (h : hard_drop env fuel s = some o) :
    o.state.characters_into_escape_sequence = s.characters_into_escape_sequence := by
  unfold hard_drop at h
  cases hl : hard_drop_loop env fuel s with
  | none => simp [hl] at h
  | some t =>
    have hc := hard_drop_loop_cies env fuel s t hl
    have hk := lock_and_spawn_cies env t
    rw [hl] at h
    dsimp only at h
    generalize lock_and_spawn env t = r at hk h
    cases r <;> dsimp only at h <;> cases h
    · exact hk.trans hc
    · exact hk.trans hc

theorem dispatch_cies {W : Type} (env : Env W) (fuel : Nat) (i : Input) (s : State W)
    (o : Outcome W) (h : dispatch env fuel i s = some o) :
    o.state.characters_into_escape_sequence = s.characters_into_escape_sequence := by
  unfold dispatch run_action at h
  cases ha : selected_action i <;> rw [ha] at h <;> dsimp only at h
  · cases h; rfl
  · cases h; rfl
  · cases h; rfl
  · cases h; exact drop_one_row_or_lock_cies env s
  · exact hard_drop_cies env fuel s o h
  · cases h; rfl

theorem handle_new_game_cies {W : Type} (env : Env W) (i : Input) (s : State W) :
    (handle_new_game env i s).characters_into_escape_sequence =
      s.characters_into_escape_sequence := by
  unfold handle_new_game
  split_ifs <;> rfl

theorem process_input_cies {W : Type} (env : Env W) (fuel : Nat) (i : Input) (s : State W)
    (o : Outcome W) (h : process_input env fuel i s = some o) :
    o.state.characters_into_escape_sequence = s.characters_into_escape_sequence := by
  unfold process_input at h
  cases hd : dispatch env fuel i s with
  | none => simp [hd] at h
  | some d =>
    have hc := dispatch_cies env fuel i s d hd
    rw [hd] at h
    cases d <;> dsimp only at h <;> cases h
    · exact (handle_new_game_cies env i _).trans hc
    · exact hc

theorem gravity_cies {W : Type} (env : Env W) (sf : Nat) (s : State W) :
    (gravity env sf s).state.characters_into_escape_sequence =
      s.characters_into_escape_sequence := by
  unfold gravity
  dsimp only
  split_ifs
  · exact (drop_one_row_or_lock_cies env _).trans rfl
  · rfl

/-- The parser counter after an iteration is the one the polling step left. -/
theorem loop_body_cies {W : Type} (env : Env W) (fuel : Nat) (s : State W) (o : Outcome W)
    (h : loop_body env fuel s = some o) :
    o.state.characters_into_escape_sequence =
      (poll_input env (read_clock env s)).2.characters_into_escape_sequence := by
  unfold loop_body at h
  dsimp only at h
  cases hp : process_input env fuel (poll_input env (read_clock env s)).1
      (poll_input env (read_clock env s)).2 with
  | none => simp [hp] at h
  | some d =>
    have hc := process_input_cies env fuel _ _ d hp
    rw [hp] at h
    cases d <;> dsimp only at h <;> cases h
    · exact (gravity_cies env _ _).trans hc
    · exact hc

/-! ## The polling step on one serial byte -/

theorem toChar_byte (b : Int) (h0 : 0 ≤ b) (h1 : b < 256) (c : Int) (hc0 : 0 ≤ c)
    (hc1 : c < 128) : toChar b = c ↔ b = c := by
  unfold toChar
  omega

/-- The polling step when a serial byte is read: the four-way parser test. -/
theorem poll_input_byte {W : Type} (env : Env W) (s : State W) (b : Int)
    (h : serial_byte_read env s b) :
    (poll_input env s).1 =
      (if s.characters_into_escape_sequence = 0 ∧ toChar b = 27 then ⟨-1, -1, -1⟩
       else if s.characters_into_escape_sequence = 1 ∧ toChar b = 91 then ⟨-1, -1, -1⟩
       else if s.characters_into_escape_sequence = 2 then ⟨-1, -1, toChar b⟩
       else ⟨-1, toChar b, -1⟩) ∧
    (poll_input env s).2.characters_into_escape_sequence =
      (if s.characters_into_escape_sequence = 0 ∧ toChar b = 27 then
         (s.characters_into_escape_sequence + 1) % U8
       else if s.characters_into_escape_sequence = 1 ∧ toChar b = 91 then
         (s.characters_into_escape_sequence + 1) % U8
       else 0) := by
  obtain ⟨h1, h2, h3⟩ := h
  unfold poll_input
  simp only [h1, h2, h3, called, ESCAPE_CHAR, if_true]
  split_ifs <;> simp_all


/-! ## C2 -/

/-- C2 (counterexample): one character into an escape sequence, with no button
pushed, the byte read is a space, which is not the bracket; the polling step
leaves the space in `serial_input`, the dispatch chain selects the hard-drop
arm, and the iteration locks the piece and scores. -/
theorem escape_then_space_hard_drops :
    (simState 0 0 1 ⟨0, [], [32], 2, true⟩).characters_into_escape_sequence = 1 ∧
    serial_byte_read simEnv (simState 0 0 1 ⟨0, [], [32], 2, true⟩) 32 ∧
    (poll_input simEnv (simState 0 0 1 ⟨0, [], [32], 2, true⟩)).1 = ⟨-1, 32, -1⟩ ∧
    selected_action (poll_input simEnv (simState 0 0 1 ⟨0, [], [32], 2, true⟩)).1 =
      Action.hard_drop ∧
    (∃ o, loop_body simEnv 5 (simState 0 0 1 ⟨0, [], [32], 2, true⟩) = some o ∧
      Call.fix_block_to_board_and_add_new_block true ∈ o.state.trace ∧
      o.state.score = 1) := by
  refine ⟨rfl, ⟨rfl, rfl, rfl⟩, rfl, rfl, _, rfl, ?_, rfl⟩
  decide

/-- C2 (amended): one character into an escape sequence, with no button pushed,
a byte other than the bracket returns the parser to Idle and is then processed
as a raw byte: a space selects the hard drop, `n` and `N` request a new game,
and every other byte selects nothing. -/
theorem invalid_second_byte_processed_raw {W : Type} (env : Env W) (s : State W) (b : Int)
    (hb0 : 0 ≤ b) (hb1 : b < 256) (hne : b ≠ 91)
    (hc : s.characters_into_escape_sequence = 1) (h : serial_byte_read env s b) :
    (poll_input env s).2.characters_into_escape_sequence = 0 ∧
    (poll_input env s).1 = ⟨-1, toChar b, -1⟩ ∧
    selected_action (poll_input env s).1 =
      (if b = 32 then Action.hard_drop else Action.none) ∧
    new_game_requested (poll_input env s).1 = decide (b = 110 ∨ b = 78) := by
  obtain ⟨hi, hs⟩ := poll_input_byte env s b h
  have h91 : ¬ toChar b = 91 := fun e => hne ((toChar_byte b hb0 hb1 91 (by decide) (by decide)).1 e)
  have h32 := toChar_byte b hb0 hb1 32 (by decide) (by decide)
  have h110 := toChar_byte b hb0 hb1 110 (by decide) (by decide)
  have h78 := toChar_byte b hb0 hb1 78 (by decide) (by decide)
  simp only [hc, h91, and_false, if_false, one_ne_zero, false_and,
    show ¬ (1 : Nat) = 2 by decide] at hi hs
  refine ⟨hs, hi, ?_, ?_⟩
  · rw [hi]
    unfold selected_action
    simp [h32]
  · rw [hi]
    unfold new_game_requested
    simp [h110, h78]

theorem invalid_second_byte_processed_raw_witness :
    (poll_input simEnv (simState 7 0 1 ⟨0, [], [110], 2, true⟩)).2.characters_into_escape_sequence
        = 0 ∧
    (poll_input simEnv (simState 7 0 1 ⟨0, [], [110], 2, true⟩)).1 = ⟨-1, toChar 110, -1⟩ ∧
    selected_action (poll_input simEnv (simState 7 0 1 ⟨0, [], [110], 2, true⟩)).1 =
      (if (110 : Int) = 32 then Action.hard_drop else Action.none) ∧
    new_game_requested (poll_input simEnv (simState 7 0 1 ⟨0, [], [110], 2, true⟩)).1 =
      decide ((110 : Int) = 110 ∨ (110 : Int) = 78) :=
  invalid_second_byte_processed_raw simEnv (simState 7 0 1 ⟨0, [], [110], 2, true⟩) 110
    (by decide) (by decide) (by decide) rfl ⟨rfl, rfl, rfl⟩

/-! ## C3 -/

/-- C3: from Idle, with no button pushed, the bytes ESC, bracket, `t` read in
three consecutive iterations select no action in the first two iterations and
in the third exactly the action of the terminator `t` (and never a new game);
after the third iteration the parser is Idle again. -/
theorem escape_sequence_over_three_iterations {W : Type} (env : Env W) (fuel : Nat)
    (s1 s2 s3 : State W) (o3 : Outcome W) (t : Int)
    (h0 : s1.characters_into_escape_sequence = 0)
    (r1 : byte_arrives env s1 27) (i1 : loop_body env fuel s1 = some (Outcome.playing s2))
    (r2 : byte_arrives env s2 91) (i2 : loop_body env fuel s2 = some (Outcome.playing s3))
    (r3 : byte_arrives env s3 t) (ht0 : 0 ≤ t) (ht1 : t < 256)
    (i3 : loop_body env fuel s3 = some o3) :
    (selected_action (iteration_input env s1) = Action.none ∧
      new_game_requested (iteration_input env s1) = false) ∧
    (selected_action (iteration_input env s2) = Action.none ∧
      new_game_requested (iteration_input env s2) = false) ∧
    (selected_action (iteration_input env s3) = terminator_event t ∧
      new_game_requested (iteration_input env s3) = false) ∧
    o3.state.characters_into_escape_sequence = 0 := by
  have c1 := loop_body_cies env fuel s1 _ i1
  have c2 := loop_body_cies env fuel s2 _ i2
  have c3 := loop_body_cies env fuel s3 _ i3
  obtain ⟨p1, q1⟩ := poll_input_byte env (read_clock env s1) 27 r1
  obtain ⟨p2, q2⟩ := poll_input_byte env (read_clock env s2) 91 r2
  obtain ⟨p3, q3⟩ := poll_input_byte env (read_clock env s3) t r3
  have e1 : (read_clock env s1).characters_into_escape_sequence = 0 := h0
  have k1 : s2.characters_into_escape_sequence = 1 := by
    rw [show s2.characters_into_escape_sequence = _ from c1, q1, e1]
    decide
  have e2 : (read_clock env s2).characters_into_escape_sequence = 1 := k1
  have k2 : s3.characters_into_escape_sequence = 2 := by
    rw [show s3.characters_into_escape_sequence = _ from c2, q2, e2]
    decide
  have e3 : (read_clock env s3).characters_into_escape_sequence = 2 := k2
  rw [e1] at p1
  rw [e2] at p2
  rw [e3] at p3 q3
  have p1' : iteration_input env s1 = ⟨-1, -1, -1⟩ := by
    rw [iteration_input, p1]; decide
  have p2' : iteration_input env s2 = ⟨-1, -1, -1⟩ := by
    rw [iteration_input, p2]; decide
  have p3' : iteration_input env s3 = ⟨-1, -1, toChar t⟩ := by
    rw [iteration_input, p3]; simp
  have h65 := toChar_byte t ht0 ht1 65 (by decide) (by decide)
  have h66 := toChar_byte t ht0 ht1 66 (by decide) (by decide)
  have h67 := toChar_byte t ht0 ht1 67 (by decide) (by decide)
  have h68 := toChar_byte t ht0 ht1 68 (by decide) (by decide)
  refine ⟨⟨by rw [p1']; decide, by rw [p1']; decide⟩,
    ⟨by rw [p2']; decide, by rw [p2']; decide⟩,
    ⟨?_, by rw [p3']; simp [new_game_requested]⟩, ?_⟩
  · rw [p3']
    unfold selected_action terminator_event
    simp only [h65, h66, h67, h68]
    by_cases a : t = 65
    · subst a; decide
    by_cases b : t = 66
    · subst b; decide
    by_cases c : t = 67
    · subst c; decide
    by_cases d : t = 68
    · subst d; decide
    simp [a, b, c, d]
  · rw [c3, q3]
    simp


theorem escape_sequence_over_three_iterations_witness :
    (selected_action (iteration_input simEnv escSample1) = Action.none ∧
      new_game_requested (iteration_input simEnv escSample1) = false) ∧
    (selected_action (iteration_input simEnv escSample2) = Action.none ∧
      new_game_requested (iteration_input simEnv escSample2) = false) ∧
    (selected_action (iteration_input simEnv escSample3) = terminator_event 65 ∧
      new_game_requested (iteration_input simEnv escSample3) = false) ∧
    (Outcome.playing (W := Sim)
      ⟨0, 0, 0, 0, ⟨0, [], [], 5, true⟩,
        escSample3.trace ++ [Call.get_clock_ticks 0, Call.button_pushed (-1),
          Call.serial_input_available true, Call.fgetc 65, Call.attempt_rotation true,
          Call.get_clock_ticks 0]⟩).state.characters_into_escape_sequence = 0 :=
  escape_sequence_over_three_iterations simEnv 5 escSample1 escSample2 escSample3 _ 65
    rfl ⟨rfl, rfl, rfl⟩ rfl ⟨rfl, rfl, rfl⟩ rfl ⟨rfl, rfl, rfl⟩ (by decide) (by decide) rfl

/-! ## The drop-or-lock block, by cases -/

/-- The three ways through lines 226-238 (and 282-294). -/
theorem drop_one_row_or_lock_cases {W : Type} (env : Env W) (s : State W) :
    (∃ w, env.attempt_drop_block_one_row s.world = (true, w) ∧
      drop_one_row_or_lock env s = Outcome.playing
        (stamp_last_drop_time env (called w (Call.attempt_drop_block_one_row true) s))) ∨
    (∃ w v, env.attempt_drop_block_one_row s.world = (false, w) ∧
      env.fix_block_to_board_and_add_new_block w = (false, v) ∧
      drop_one_row_or_lock env s = Outcome.game_over
        (called v (Call.fix_block_to_board_and_add_new_block false)
          (called w (Call.attempt_drop_block_one_row false) s))) ∨
    (∃ w v, env.attempt_drop_block_one_row s.world = (false, w) ∧
      env.fix_block_to_board_and_add_new_block w = (true, v) ∧
      drop_one_row_or_lock env s = Outcome.playing
        (stamp_last_drop_time env (print_score_and_rows env (score_one
          (called v (Call.fix_block_to_board_and_add_new_block true)
            (called w (Call.attempt_drop_block_one_row false) s)))))) := by
  rcases hr : env.attempt_drop_block_one_row s.world with ⟨r, w⟩
  cases r
  · rcases hf : env.fix_block_to_board_and_add_new_block w with ⟨f, v⟩
    cases f
    · right; left
      refine ⟨w, v, rfl, hf, ?_⟩
      simp [drop_one_row_or_lock, lock_and_spawn, hr, hf, called]
    · right; right
      refine ⟨w, v, rfl, hf, ?_⟩
      simp [drop_one_row_or_lock, lock_and_spawn, hr, hf, called]
  · left
    refine ⟨w, rfl, ?_⟩
    simp [drop_one_row_or_lock, hr]

theorem new_calls_append {W : Type} (s t : State W) (l : List Call)
    (h : t.trace = s.trace ++ l) : new_calls s t = l := by
  simp [new_calls, h]


/-! ## C4 -/

/-- C4 (counterexample): the stored drop time is 100 ticks before the 32-bit
wrap and the clock reads 50 ticks later, so that the unsigned difference is 50,
less than the speed factor 600; the timer check nevertheless makes the drop
attempt, because the deadline `last_drop_time + speed_factor` wrapped to 500. -/
theorem gravity_fires_before_interval_on_wrap :
    speed_factor wrapSample = 600 ∧
    ¬ ((4294967246 + U32 - wrapSample.last_drop_time) % U32 ≥ speed_factor wrapSample) ∧
    Call.attempt_drop_block_one_row true ∈
      new_calls wrapSample (gravity simEnv (speed_factor wrapSample) wrapSample).state := by
  refine ⟨rfl, by decide, ?_⟩
  decide

/-- C4 (amended): the timer check makes its drop attempt exactly when the clock
value read is at least `(last_drop_time + speed_factor) mod 2^32`; when it does
and the loop is not left, the last call made is a fresh clock read whose value
is the new `last_drop_time`; and without wrap-around (the deadline fits in 32
bits and the clock is not behind the stored time) the test is the same as
`now - last_drop_time >= speed_factor`. -/
theorem gravity_deadline {W : Type} (env : Env W) (sf : Nat) (s : State W) :
    ((∃ r, Call.attempt_drop_block_one_row r ∈ new_calls s (gravity env sf s).state) ↔
      (env.get_clock_ticks s.world).1 % U32 ≥ (s.last_drop_time + sf) % U32) ∧
    (∀ t, gravity env sf s = Outcome.playing t →
      (env.get_clock_ticks s.world).1 % U32 ≥ (s.last_drop_time + sf) % U32 →
      t.trace.getLast? = some (Call.get_clock_ticks t.last_drop_time)) ∧
    (s.last_drop_time + sf < U32 → s.last_drop_time ≤ (env.get_clock_ticks s.world).1 % U32 →
      ((env.get_clock_ticks s.world).1 % U32 ≥ (s.last_drop_time + sf) % U32 ↔
        ((env.get_clock_ticks s.world).1 % U32 + U32 - s.last_drop_time) % U32 ≥ sf)) := by
  refine ⟨?_, ?_, ?_⟩
  · by_cases hc : (env.get_clock_ticks s.world).1 % U32 ≥ (s.last_drop_time + sf) % U32
    · simp only [hc, iff_true]
      have hg : gravity env sf s = drop_one_row_or_lock env
          (called (env.get_clock_ticks s.world).2
            (Call.get_clock_ticks ((env.get_clock_ticks s.world).1 % U32)) s) := by
        unfold gravity
        dsimp only
        rw [if_pos (by simpa [called] using hc)]
      rw [hg]
      rcases drop_one_row_or_lock_cases env
          (called (env.get_clock_ticks s.world).2
            (Call.get_clock_ticks ((env.get_clock_ticks s.world).1 % U32)) s) with
        ⟨w, _, e⟩ | ⟨w, v, _, _, e⟩ | ⟨w, v, _, _, e⟩
      · exact ⟨true, by
          rw [e]
          simp [new_calls, Outcome.state, stamp_last_drop_time, called]⟩
      · exact ⟨false, by
          rw [e]
          simp [new_calls, Outcome.state, called]⟩
      · exact ⟨false, by
          rw [e]
          simp [new_calls, Outcome.state, stamp_last_drop_time, called, print_score_and_rows,
            effect, score_one, add_to_score]⟩
    · simp only [hc, iff_false]
      have hg : gravity env sf s = Outcome.playing
          (called (env.get_clock_ticks s.world).2
            (Call.get_clock_ticks ((env.get_clock_ticks s.world).1 % U32)) s) := by
        unfold gravity
        dsimp only
        rw [if_neg (by simpa [called] using hc)]
      rw [hg]
      simp [new_calls, Outcome.state, called]
  · intro t ht hc
    have hg : gravity env sf s = drop_one_row_or_lock env
        (called (env.get_clock_ticks s.world).2
          (Call.get_clock_ticks ((env.get_clock_ticks s.world).1 % U32)) s) := by
      unfold gravity
      dsimp only
      rw [if_pos (by simpa [called] using hc)]
    rw [hg] at ht
    rcases drop_one_row_or_lock_cases env
        (called (env.get_clock_ticks s.world).2
          (Call.get_clock_ticks ((env.get_clock_ticks s.world).1 % U32)) s) with
      ⟨w, _, e⟩ | ⟨w, v, _, _, e⟩ | ⟨w, v, _, _, e⟩
    · rw [e] at ht
      cases ht
      simp [stamp_last_drop_time, called]
    · rw [e] at ht
      cases ht
    · rw [e] at ht
      cases ht
      simp [stamp_last_drop_time, called]
  · intro h1 h2
    have hlt : (env.get_clock_ticks s.world).1 % U32 < U32 := Nat.mod_lt _ (by decide)
    rw [Nat.mod_eq_of_lt h1]
    have e : ((env.get_clock_ticks s.world).1 % U32 + U32 - s.last_drop_time) % U32 =
        (env.get_clock_ticks s.world).1 % U32 - s.last_drop_time := by
      have : (env.get_clock_ticks s.world).1 % U32 + U32 - s.last_drop_time =
          ((env.get_clock_ticks s.world).1 % U32 - s.last_drop_time) + U32 := by omega
      rw [this, Nat.add_mod_right]
      exact Nat.mod_eq_of_lt (by omega)
    rw [e]
    omega

theorem gravity_deadline_witness :
    ((∃ r, Call.attempt_drop_block_one_row r ∈
        new_calls (simState 0 100 0 ⟨700, [], [], 5, true⟩)
          (gravity simEnv 600 (simState 0 100 0 ⟨700, [], [], 5, true⟩)).state) ↔
      (simEnv.get_clock_ticks (simState 0 100 0 ⟨700, [], [], 5, true⟩).world).1 % U32 ≥
        ((simState 0 100 0 ⟨700, [], [], 5, true⟩).last_drop_time + 600) % U32) ∧
    (gravity simEnv 600 (simState 0 100 0 ⟨700, [], [], 5, true⟩)).state.last_drop_time = 700 ∧
    (700 % U32 ≥ (100 + 600) % U32 ↔ (700 % U32 + U32 - 100) % U32 ≥ 600) :=
  ⟨(gravity_deadline simEnv 600 (simState 0 100 0 ⟨700, [], [], 5, true⟩)).1, rfl,
    (gravity_deadline simEnv 600 (simState 0 100 0 ⟨700, [], [], 5, true⟩)).2.2
      (by decide) (by decide)⟩


/-! ## C5 -/

/-- The hard-drop loop on a piece that can fall `k` rows: it ends, having made
`k` successful attempts followed by one failing attempt (two when `k` is odd,
the first of them in the loop body), and touches nothing but the board. -/
theorem hard_drop_loop_falls {W : Type} (env : Env W) (h : W → Nat) (hf : falls_by env h) :
    ∀ (k fuel : Nat) (s : State W), h s.world = k → k < fuel →
      ∃ t, hard_drop_loop env fuel s = some t ∧ h t.world = 0 ∧
        t.trace = s.trace ++ (List.replicate k (Call.attempt_drop_block_one_row true) ++
          List.replicate (1 + k % 2) (Call.attempt_drop_block_one_row false)) ∧
        t.score = s.score ∧ t.row_number = s.row_number ∧
        t.last_drop_time = s.last_drop_time ∧
        t.characters_into_escape_sequence = s.characters_into_escape_sequence
  | _, 0, _, _, hlt => absurd hlt (Nat.not_lt_zero _)
  | 0, fuel + 1, s, hk, _ => by
    have hr := hf.2 s.world hk
    refine ⟨called s.world (Call.attempt_drop_block_one_row false) s, ?_, hk, ?_, rfl, rfl,
      rfl, rfl⟩
    · simp [hard_drop_loop, hr]
    · simp [called]
  | 1, fuel + 1, s, hk, hlt => by
    obtain ⟨a1, a2⟩ := hf.1 s.world (by omega)
    have hz : h (env.attempt_drop_block_one_row s.world).2 = 0 := by omega
    have hr := hf.2 _ hz
    obtain ⟨t, e, t0, ttr, r1, r2, r3, r4⟩ := hard_drop_loop_falls env h hf 0 fuel
      (called (env.attempt_drop_block_one_row s.world).2
        (Call.attempt_drop_block_one_row false)
        (called (env.attempt_drop_block_one_row s.world).2
          (Call.attempt_drop_block_one_row true) s)) hz (by omega)
    refine ⟨t, ?_, t0, ?_, r1, r2, r3, r4⟩
    · rw [hard_drop_loop]
      simp only [a1, if_true, called, hr]
      simpa [called] using e
    · rw [ttr]
      simp [called]
  | k + 2, fuel + 1, s, hk, hlt => by
    obtain ⟨a1, a2⟩ := hf.1 s.world (by omega)
    obtain ⟨b1, b2⟩ := hf.1 (env.attempt_drop_block_one_row s.world).2 (by omega)
    obtain ⟨t, e, t0, ttr, r1, r2, r3, r4⟩ := hard_drop_loop_falls env h hf k fuel
      (called (env.attempt_drop_block_one_row (env.attempt_drop_block_one_row s.world).2).2
        (Call.attempt_drop_block_one_row true)
        (called (env.attempt_drop_block_one_row s.world).2
          (Call.attempt_drop_block_one_row true) s)) (by simp only [called]; omega) (by omega)
    refine ⟨t, ?_, t0, ?_, r1, r2, r3, r4⟩
    · rw [hard_drop_loop]
      simp only [a1, if_true, called, b1]
      simpa [called] using e
    · rw [ttr]
      simp [called, List.replicate_succ]

/-- C5: a hard-drop event (button 1, or a raw space) dispatched on a piece that
can fall exactly `k` rows makes exactly `k` successful one-row drops, then the
failing attempts, then exactly one lock-and-spawn call; if that call succeeds
the loop goes on with the score increased by one (modulo `2^32`), and if it
fails the loop is left with the score unchanged and nothing further called. -/
theorem hard_drop_lowers_locks_scores {W : Type} (env : Env W) (h : W → Nat)
    (hf : falls_by env h) (k fuel : Nat) (s : State W) (i : Input)
    (hi : i = ⟨1, -1, -1⟩ ∨ i = ⟨-1, 32, -1⟩) (hk : h s.world = k) (hfuel : k < fuel) :
    ∃ o ok rest, dispatch env fuel i s = some o ∧
      new_calls s o.state =
        List.replicate k (Call.attempt_drop_block_one_row true) ++
          List.replicate (1 + k % 2) (Call.attempt_drop_block_one_row false) ++
          Call.fix_block_to_board_and_add_new_block ok :: rest ∧
      (∀ c ∈ rest, c.is_drop = false ∧ c.is_lock = false) ∧
      (ok = true → o.exited = false ∧ o.state.score = (s.score + 1) % U32) ∧
      (ok = false → o.exited = true ∧ o.state.score = s.score ∧ rest = []) := by
  have ha : selected_action i = Action.hard_drop := by
    rcases hi with e | e <;> subst e <;> decide
  obtain ⟨t, e, _, ttr, r1, _, _, _⟩ := hard_drop_loop_falls env h hf k fuel s hk hfuel
  rcases hfx : env.fix_block_to_board_and_add_new_block t.world with ⟨f, v⟩
  cases f
  · refine ⟨Outcome.game_over (called v (Call.fix_block_to_board_and_add_new_block false) t),
      false, [], ?_, ?_, ?_, ?_, ?_⟩
    · simp [dispatch, ha, run_action, hard_drop, e, lock_and_spawn, hfx]
    · apply new_calls_append
      simp [Outcome.state, called, ttr]
    · simp
    · simp
    · intro _
      exact ⟨rfl, r1, rfl⟩
  · refine ⟨Outcome.playing (stamp_last_drop_time env (print_score_and_rows env (score_one
        (called v (Call.fix_block_to_board_and_add_new_block true) t)))),
      true, [Call.add_to_score 1, Call.hide_cursor, Call.move_cursor 50 3,
        Call.printf_score ((s.score + 1) % U32), Call.move_cursor 50 5,
        Call.printf_rows t.row_number,
        Call.get_clock_ticks (stamp_last_drop_time env (print_score_and_rows env (score_one
          (called v (Call.fix_block_to_board_and_add_new_block true) t)))).last_drop_time],
      ?_, ?_, ?_, ?_, ?_⟩
    · simp [dispatch, ha, run_action, hard_drop, e, lock_and_spawn, hfx]
    · apply new_calls_append
      simp [Outcome.state, called, ttr, stamp_last_drop_time, print_score_and_rows, effect,
        score_one, add_to_score, get_score, get_row, r1, U16]
    · simp [Call.is_drop, Call.is_lock]
    · intro _
      refine ⟨rfl, ?_⟩
      simp [Outcome.state, called, stamp_last_drop_time, print_score_and_rows, effect,
        score_one, add_to_score, r1, U16]
    · simp

theorem simEnv_falls : falls_by simEnv Sim.height := by
  refine ⟨fun w hw => ?_, fun w hw => ?_⟩
  · simp only [simEnv, hw, if_true]
    exact ⟨trivial, by omega⟩
  · simp [simEnv, hw]

theorem hard_drop_lowers_locks_scores_witness :
    ∃ o ok rest, dispatch simEnv 5 ⟨-1, 32, -1⟩ (simState 10 0 0 ⟨0, [], [], 3, true⟩) = some o ∧
      new_calls (simState 10 0 0 ⟨0, [], [], 3, true⟩) o.state =
        List.replicate 3 (Call.attempt_drop_block_one_row true) ++
          List.replicate (1 + 3 % 2) (Call.attempt_drop_block_one_row false) ++
          Call.fix_block_to_board_and_add_new_block ok :: rest ∧
      (∀ c ∈ rest, c.is_drop = false ∧ c.is_lock = false) ∧
      (ok = true → o.exited = false ∧
        o.state.score = ((simState 10 0 0 ⟨0, [], [], 3, true⟩).score + 1) % U32) ∧
      (ok = false → o.exited = true ∧
        o.state.score = (simState 10 0 0 ⟨0, [], [], 3, true⟩).score ∧ rest = []) :=
  hard_drop_lowers_locks_scores simEnv Sim.height simEnv_falls 3 5
    (simState 10 0 0 ⟨0, [], [], 3, true⟩) ⟨-1, 32, -1⟩ (Or.inr rfl) rfl (by decide)


/-! ## C6 -/

/-- C6: the soft-drop event (no button, terminator `B`) runs one drop attempt.
If the attempt succeeds, lock-and-spawn is not called, the score is unchanged
and the loop goes on.  If it fails, lock-and-spawn is called once: on success
the score goes up by one (modulo `2^32`) and the loop goes on, on failure the
loop is left (GAME OVER) with the score as it was. -/
theorem soft_drop_dispatch {W : Type} (env : Env W) (fuel : Nat) (i : Input) (s : State W)
    (hb : i.button = -1) (he : i.escape_sequence_char = 66) :
    ((env.attempt_drop_block_one_row s.world).1 = true →
      ∃ t, dispatch env fuel i s = some (Outcome.playing t) ∧ t.score = s.score ∧
        (new_calls s t).countP Call.is_lock = 0 ∧ (new_calls s t).countP Call.is_drop = 1) ∧
    ((env.attempt_drop_block_one_row s.world).1 = false →
      (env.fix_block_to_board_and_add_new_block
        (env.attempt_drop_block_one_row s.world).2).1 = true →
      ∃ t, dispatch env fuel i s = some (Outcome.playing t) ∧
        t.score = (s.score + 1) % U32 ∧
        (new_calls s t).countP Call.is_lock = 1 ∧ (new_calls s t).countP Call.is_drop = 1) ∧
    ((env.attempt_drop_block_one_row s.world).1 = false →
      (env.fix_block_to_board_and_add_new_block
        (env.attempt_drop_block_one_row s.world).2).1 = false →
      ∃ t, dispatch env fuel i s = some (Outcome.game_over t) ∧ t.score = s.score ∧
        (new_calls s t).countP Call.is_lock = 1 ∧ (new_calls s t).countP Call.is_drop = 1) := by
  have ha : selected_action i = Action.soft_drop := by
    unfold selected_action
    simp [hb, he]
  have hd : dispatch env fuel i s = some (drop_one_row_or_lock env s) := by
    simp [dispatch, ha, run_action]
  rw [hd]
  rcases drop_one_row_or_lock_cases env s with ⟨w, e1, e⟩ | ⟨w, v, e1, e2, e⟩ | ⟨w, v, e1, e2, e⟩
  · rw [e]
    refine ⟨fun _ => ⟨_, rfl, ?_, ?_, ?_⟩, fun h => ?_, fun h => ?_⟩
    · simp [stamp_last_drop_time, called]
    · simp [new_calls, stamp_last_drop_time, called, Call.is_lock, List.countP_cons]
    · simp [new_calls, stamp_last_drop_time, called, Call.is_drop, List.countP_cons]
    · simp [e1] at h
    · simp [e1] at h
  · rw [e]
    refine ⟨fun h => ?_, fun _ h => ?_, fun _ _ => ⟨_, rfl, ?_, ?_, ?_⟩⟩
    · simp [e1] at h
    · simp [e1, e2] at h
    · simp [called]
    · simp [new_calls, called, Call.is_lock, Call.is_drop, List.countP_cons]
    · simp [new_calls, called, Call.is_lock, Call.is_drop, List.countP_cons]
  · rw [e]
    refine ⟨fun h => ?_, fun _ _ => ⟨_, rfl, ?_, ?_, ?_⟩, fun _ h => ?_⟩
    · simp [e1] at h
    · simp [stamp_last_drop_time, called, print_score_and_rows, effect, score_one,
        add_to_score, U16]
    · simp [new_calls, stamp_last_drop_time, called, print_score_and_rows, effect, score_one,
        add_to_score, Call.is_lock, Call.is_drop, List.countP_cons]
    · simp [new_calls, stamp_last_drop_time, called, print_score_and_rows, effect, score_one,
        add_to_score, Call.is_lock, Call.is_drop, List.countP_cons]
    · simp [e1, e2] at h

theorem soft_drop_dispatch_witness :
    ∃ t, dispatch simEnv 0 ⟨-1, -1, 66⟩ (simState 41 0 0 ⟨0, [], [], 0, true⟩) =
        some (Outcome.playing t) ∧
      t.score = ((simState 41 0 0 ⟨0, [], [], 0, true⟩).score + 1) % U32 ∧
      (new_calls (simState 41 0 0 ⟨0, [], [], 0, true⟩) t).countP Call.is_lock = 1 ∧
      (new_calls (simState 41 0 0 ⟨0, [], [], 0, true⟩) t).countP Call.is_drop = 1 :=
  (soft_drop_dispatch simEnv 0 ⟨-1, -1, 66⟩ (simState 41 0 0 ⟨0, [], [], 0, true⟩)
    rfl rfl).2.1 rfl rfl

/-! ## C7 -/

/-- C7: when the button source returns an index in 0..3, the polling step makes
no other call (no serial byte is looked for or consumed), leaves the parser
counter as it was, and the action selected depends on the button alone: 3 is
move left, 0 is move right, 2 is rotate, 1 is the hard drop; no new game is
requested. -/
theorem button_preempts_serial {W : Type} (env : Env W) (s : State W) (b : Int) (w : W)
    (hb : b = 0 ∨ b = 1 ∨ b = 2 ∨ b = 3) (hp : env.button_pushed s.world = (b, w)) :
    poll_input env s = (⟨b, -1, -1⟩, called w (Call.button_pushed b) s) ∧
    new_calls s (poll_input env s).2 = [Call.button_pushed b] ∧
    (∀ c ∈ new_calls s (poll_input env s).2, c.is_serial = false) ∧
    (poll_input env s).2.characters_into_escape_sequence =
      s.characters_into_escape_sequence ∧
    selected_action (poll_input env s).1 =
      (if b = 3 then Action.move_left else if b = 0 then Action.move_right
       else if b = 2 then Action.rotate else Action.hard_drop) ∧
    new_game_requested (poll_input env s).1 = false := by
  have hne : ¬ b = -1 := by omega
  have e : poll_input env s = (⟨b, -1, -1⟩, called w (Call.button_pushed b) s) := by
    unfold poll_input
    simp [hp, hne]
  rw [e]
  refine ⟨rfl, ?_, ?_, rfl, ?_, ?_⟩
  · simp [new_calls, called]
  · simp [new_calls, called, Call.is_serial]
  · show selected_action ⟨b, -1, -1⟩ = _
    rcases hb with h | h | h | h <;> subst h <;> decide
  · show new_game_requested ⟨b, -1, -1⟩ = false
    rcases hb with h | h | h | h <;> subst h <;> decide

theorem button_preempts_serial_witness :
    poll_input simEnv (simState 0 0 1 ⟨0, [3], [91], 4, true⟩) =
      (⟨3, -1, -1⟩, called ⟨0, [], [91], 4, true⟩ (Call.button_pushed 3)
        (simState 0 0 1 ⟨0, [3], [91], 4, true⟩)) ∧
    selected_action (poll_input simEnv (simState 0 0 1 ⟨0, [3], [91], 4, true⟩)).1 =
      Action.move_left :=
  ⟨(button_preempts_serial simEnv (simState 0 0 1 ⟨0, [3], [91], 4, true⟩) 3
      ⟨0, [], [91], 4, true⟩ (by decide) rfl).1,
    (button_preempts_serial simEnv (simState 0 0 1 ⟨0, [3], [91], 4, true⟩) 3
      ⟨0, [], [91], 4, true⟩ (by decide) rfl).2.2.2.2.1⟩

/-! ## The shape of the polled input -/

/-- After the polling step either `serial_input` is `-1` and so is one of the
other two variables, or both `button` and `escape_sequence_char` are `-1`. -/
theorem poll_input_shape {W : Type} (env : Env W) (s : State W) :
    ((poll_input env s).1.serial_input = -1 ∧
      ((poll_input env s).1.button = -1 ∨ (poll_input env s).1.escape_sequence_char = -1)) ∨
    ((poll_input env s).1.button = -1 ∧ (poll_input env s).1.escape_sequence_char = -1) := by
  unfold poll_input
  dsimp only
  split_ifs <;> simp_all

/-- A new-game request and an arm of the dispatch chain exclude each other. -/
theorem new_game_excludes_action {W : Type} (env : Env W) (s : State W) :
    selected_action (poll_input env s).1 = Action.none ∨
      new_game_requested (poll_input env s).1 = false := by
  have hs := poll_input_shape env s
  generalize (poll_input env s).1 = i at hs
  rcases hs with ⟨h1, _⟩ | ⟨h1, h2⟩
  · right
    simp [new_game_requested, h1]
  · by_cases h32 : i.serial_input = 32
    · right
      simp [new_game_requested, h32]
    · left
      unfold selected_action
      simp [h1, h2, h32]

/-! ## C8 -/

/-- C8: when the polling step yields a new-game request (`n` or `N` left in
`serial_input`), processing the input from any session state goes on playing
with score 0 and row count 0, and processing the same request again from the
resulting state gives the same score and row count. -/
theorem new_game_resets_counters {W : Type} (env : Env W) (fuel : Nat) (s0 s : State W)
    (hn : new_game_requested (poll_input env s0).1 = true) :
    ∃ t, process_input env fuel (poll_input env s0).1 s = some (Outcome.playing t) ∧
      get_score t = 0 ∧ get_row t = 0 ∧
      ∃ u, process_input env fuel (poll_input env s0).1 t = some (Outcome.playing u) ∧
        get_score u = get_score t ∧ get_row u = get_row t := by
  have ha : selected_action (poll_input env s0).1 = Action.none := by
    rcases new_game_excludes_action env s0 with h | h
    · exact h
    · rw [h] at hn
      cases hn
  have hp : ∀ x : State W, process_input env fuel (poll_input env s0).1 x =
      some (Outcome.playing (restart_game env x)) := by
    intro x
    simp [process_input, dispatch, ha, run_action, handle_new_game, hn]
  have hs : ∀ x : State W, get_score (restart_game env x) = 0 := fun x => by
    simp [restart_game, print_score_and_rows, effect, init_score, get_score]
  have hr : ∀ x : State W, get_row (restart_game env x) = 0 := fun x => by
    simp [restart_game, print_score_and_rows, effect, init_score, init_game, init_row, get_row]
  exact ⟨restart_game env s, hp s, hs s, hr s, restart_game env (restart_game env s), hp _,
    (hs _).trans (hs s).symm, (hr _).trans (hr s).symm⟩

theorem new_game_resets_counters_witness :
    ∃ t, process_input simEnv 0 (poll_input simEnv midSession).1 (poll_input simEnv midSession).2
        = some (Outcome.playing t) ∧
      get_score t = 0 ∧ get_row t = 0 ∧
      ∃ u, process_input simEnv 0 (poll_input simEnv midSession).1 t =
          some (Outcome.playing u) ∧
        get_score u = get_score t ∧ get_row u = get_row t :=
  new_game_resets_counters simEnv 0 midSession (poll_input simEnv midSession).2 rfl


/-! ## C9 -/

/-- C9: after the polling step at most one of `button`, `serial_input` and
`escape_sequence_char` differs from `-1` (two of them are `-1`), and at most
one dispatch action runs: whenever an arm of the chain is selected the new-game
body is skipped, and whenever a new game is requested no arm of the chain
runs. -/
theorem at_most_one_input_actioned {W : Type} (env : Env W) (s : State W) :
    (((poll_input env s).1.button = -1 ∧ (poll_input env s).1.serial_input = -1) ∨
      ((poll_input env s).1.button = -1 ∧ (poll_input env s).1.escape_sequence_char = -1) ∨
      ((poll_input env s).1.serial_input = -1 ∧
        (poll_input env s).1.escape_sequence_char = -1)) ∧
    (selected_action (poll_input env s).1 = Action.none ∨
      new_game_requested (poll_input env s).1 = false) ∧
    (∀ t : State W, selected_action (poll_input env s).1 ≠ Action.none →
      handle_new_game env (poll_input env s).1 t = t) ∧
    (∀ (fuel : Nat) (t : State W), new_game_requested (poll_input env s).1 = true →
      dispatch env fuel (poll_input env s).1 t = some (Outcome.playing t)) := by
  have hs := poll_input_shape env s
  have key := new_game_excludes_action env s
  generalize (poll_input env s).1 = i at hs key
  refine ⟨?_, key, ?_, ?_⟩
  · rcases hs with ⟨h1, h2 | h2⟩ | ⟨h1, h2⟩
    · exact Or.inl ⟨h2, h1⟩
    · exact Or.inr (Or.inr ⟨h1, h2⟩)
    · exact Or.inr (Or.inl ⟨h1, h2⟩)
  · intro t hne
    rcases key with h | h
    · exact absurd h hne
    · simp [handle_new_game, h]
  · intro fuel t hn
    rcases key with h | h
    · simp [dispatch, h, run_action]
    · rw [h] at hn
      cases hn


theorem at_most_one_input_actioned_witness :
    (((poll_input simEnv midSession).1.button = -1 ∧
        (poll_input simEnv midSession).1.serial_input = -1) ∨
      ((poll_input simEnv midSession).1.button = -1 ∧
        (poll_input simEnv midSession).1.escape_sequence_char = -1) ∨
      ((poll_input simEnv midSession).1.serial_input = -1 ∧
        (poll_input simEnv midSession).1.escape_sequence_char = -1)) ∧
    (selected_action (poll_input simEnv midSession).1 = Action.none ∨
      new_game_requested (poll_input simEnv midSession).1 = false) ∧
    dispatch simEnv 0 (poll_input simEnv midSession).1 midSession =
      some (Outcome.playing midSession) :=
  ⟨(at_most_one_input_actioned simEnv midSession).1,
    (at_most_one_input_actioned simEnv midSession).2.1,
    (at_most_one_input_actioned simEnv midSession).2.2.2 0 midSession rfl⟩

/-! ## The lock discipline of the trace -/

theorem plain_discipline (l : List Call) (h : all_plain l) : lock_discipline false l := by
  unfold lock_discipline
  refine ⟨?_, fun e => Bool.noConfusion e, ?_⟩
  · constructor
    · intro e; cases e
    · intro m
      have := h _ m
      simp [Call.is_plain, Call.is_lock] at this
  · have h1 : l.countP Call.is_score = 0 := by
      rw [List.countP_eq_zero]
      intro c m
      have := h c m
      simp only [Call.is_plain, Bool.and_eq_true, Bool.not_eq_true'] at this
      simp [this.2]
    have h2 : l.count (Call.fix_block_to_board_and_add_new_block true) = 0 := by
      rw [List.count_eq_zero]
      intro m
      have := h _ m
      simp [Call.is_plain, Call.is_lock] at this
    rw [h1, h2]

theorem discipline_append (e : Bool) (l1 l2 : List Call) (h1 : lock_discipline false l1)
    (h2 : lock_discipline e l2) : lock_discipline e (l1 ++ l2) := by
  obtain ⟨a1, _, c1⟩ := h1
  obtain ⟨a2, b2, c2⟩ := h2
  have n1 : Call.fix_block_to_board_and_add_new_block false ∉ l1 := fun m => by
    have := a1.2 m
    cases this
  refine ⟨?_, ?_, ?_⟩
  · rw [List.mem_append, a2]
    constructor
    · exact Or.inr
    · rintro (m | m)
      · exact absurd m n1
      · exact m
  · intro he
    have hl := b2 he
    have hne : l2 ≠ [] := by
      intro hnil
      rw [hnil] at hl
      cases hl
    rw [List.getLast?_append_of_ne_nil _ hne]
    exact hl
  · rw [List.countP_append, List.count_append, c1, c2]

theorem continues_refl {W : Type} (s : State W) : continues all_plain s s :=
  ⟨[], by simp, fun _ m => by cases m⟩

theorem continues_plain_trans {W : Type} (s t u : State W) (h1 : continues all_plain s t)
    (h2 : continues all_plain t u) : continues all_plain s u := by
  obtain ⟨l1, e1, p1⟩ := h1
  obtain ⟨l2, e2, p2⟩ := h2
  refine ⟨l1 ++ l2, by rw [e2, e1, List.append_assoc], ?_⟩
  intro c m
  rcases List.mem_append.1 m with m | m
  · exact p1 c m
  · exact p2 c m

theorem continues_trans {W : Type} (e : Bool) (s t u : State W)
    (h1 : continues all_plain s t) (h2 : continues (lock_discipline e) t u) :
    continues (lock_discipline e) s u := by
  obtain ⟨l1, e1, p1⟩ := h1
  obtain ⟨l2, e2, p2⟩ := h2
  exact ⟨l1 ++ l2, by rw [e2, e1, List.append_assoc],
    discipline_append e l1 l2 (plain_discipline l1 p1) p2⟩

theorem continues_disc_trans {W : Type} (e : Bool) (s t u : State W)
    (h1 : continues (lock_discipline false) s t) (h2 : continues (lock_discipline e) t u) :
    continues (lock_discipline e) s u := by
  obtain ⟨l1, e1, p1⟩ := h1
  obtain ⟨l2, e2, p2⟩ := h2
  exact ⟨l1 ++ l2, by rw [e2, e1, List.append_assoc], discipline_append e l1 l2 p1 p2⟩

theorem continues_of_plain {W : Type} (s t : State W) (h : continues all_plain s t) :
    continues (lock_discipline false) s t := by
  obtain ⟨l, e, p⟩ := h
  exact ⟨l, e, plain_discipline l p⟩

theorem called_plain {W : Type} (w : W) (c : Call) (s : State W) (hc : c.is_plain = true) :
    continues all_plain s (called w c s) :=
  ⟨[c], rfl, fun d m => by
    rw [List.mem_singleton] at m
    rw [m]
    exact hc⟩

theorem print_plain {W : Type} (env : Env W) (s : State W) :
    continues all_plain s (print_score_and_rows env s) :=
  ⟨[Call.hide_cursor, Call.move_cursor 50 3, Call.printf_score (get_score s),
      Call.move_cursor 50 5, Call.printf_rows (get_row s)],
    by simp [print_score_and_rows, effect, get_score, get_row],
    fun d m => by
      simp only [List.mem_cons, List.mem_singleton, List.not_mem_nil, or_false] at m
      rcases m with m | m | m | m | m <;> rw [m] <;> rfl⟩

theorem stamp_plain {W : Type} (env : Env W) (s : State W) :
    continues all_plain s (stamp_last_drop_time env s) :=
  ⟨[Call.get_clock_ticks ((env.get_clock_ticks s.world).1 % U32)],
    by simp [stamp_last_drop_time, called],
    fun d m => by
      rw [List.mem_singleton] at m
      rw [m]
      rfl⟩

theorem read_clock_plain {W : Type} (env : Env W) (s : State W) :
    continues all_plain s (read_clock env s) :=
  called_plain _ _ s rfl

theorem poll_input_plain {W : Type} (env : Env W) (s : State W) :
    continues all_plain s (poll_input env s).2 := by
  have h1 := called_plain (env.button_pushed s.world).2
    (Call.button_pushed (env.button_pushed s.world).1) s rfl
  have h2 := fun x : State W => called_plain (env.serial_input_available x.world).2
    (Call.serial_input_available (env.serial_input_available x.world).1) x rfl
  have h3 := fun x : State W => called_plain (env.fgetc x.world).2
    (Call.fgetc (env.fgetc x.world).1) x rfl
  have h12 := continues_plain_trans _ _ _ h1 (h2 _)
  have h123 := continues_plain_trans _ _ _ h12 (h3 _)
  unfold poll_input
  dsimp only
  split_ifs
  · exact h123
  · exact h123
  · exact h123
  · exact h123
  · exact h12
  · exact h1

theorem restart_game_plain {W : Type} (env : Env W) (s : State W) :
    continues all_plain s (restart_game env s) := by
  refine continues_plain_trans _ _ _ ?_ (print_plain env _)
  exact ⟨[Call.init_game, Call.clear_terminal, Call.init_score, Call.init_seven_seg,
      Call.empty_button_queue, Call.clear_serial_input_buffer],
    by simp [effect, init_game, init_row, init_score],
    fun d m => by
      simp only [List.mem_cons, List.mem_singleton, List.not_mem_nil, or_false] at m
      rcases m with m | m | m | m | m | m <;> rw [m] <;> rfl⟩

theorem handle_new_game_plain {W : Type} (env : Env W) (i : Input) (s : State W) :
    continues all_plain s (handle_new_game env i s) := by
  unfold handle_new_game
  split_ifs
  · exact restart_game_plain env s
  · exact continues_refl s

theorem lock_and_spawn_discipline {W : Type} (env : Env W) (s : State W) :
    continues (lock_discipline (lock_and_spawn env s).exited) s (lock_and_spawn env s).state := by
  rcases hf : env.fix_block_to_board_and_add_new_block s.world with ⟨f, v⟩
  cases f
  · have e : lock_and_spawn env s =
        Outcome.game_over (called v (Call.fix_block_to_board_and_add_new_block false) s) := by
      simp [lock_and_spawn, hf]
    rw [e]
    exact ⟨[Call.fix_block_to_board_and_add_new_block false], rfl, by
      simp [lock_discipline, Outcome.exited, Call.is_score, List.countP_cons]⟩
  · have e : lock_and_spawn env s = Outcome.playing (print_score_and_rows env
        (score_one (called v (Call.fix_block_to_board_and_add_new_block true) s))) := by
      simp [lock_and_spawn, hf]
    rw [e]
    refine continues_disc_trans false _ _ _ ?_ (continues_of_plain _ _ (print_plain env _))
    exact ⟨[Call.fix_block_to_board_and_add_new_block true, Call.add_to_score 1],
      by simp [score_one, add_to_score, called], by
      simp [lock_discipline, Call.is_score, List.countP_cons]⟩

theorem drop_one_row_or_lock_discipline {W : Type} (env : Env W) (s : State W) :
    continues (lock_discipline (drop_one_row_or_lock env s).exited) s
      (drop_one_row_or_lock env s).state := by
  have hd := called_plain (env.attempt_drop_block_one_row s.world).2
    (Call.attempt_drop_block_one_row (env.attempt_drop_block_one_row s.world).1) s rfl
  unfold drop_one_row_or_lock
  dsimp only
  split_ifs
  · have hl := lock_and_spawn_discipline env
      (called (env.attempt_drop_block_one_row s.world).2
        (Call.attempt_drop_block_one_row (env.attempt_drop_block_one_row s.world).1) s)
    generalize lock_and_spawn env
      (called (env.attempt_drop_block_one_row s.world).2
        (Call.attempt_drop_block_one_row (env.attempt_drop_block_one_row s.world).1) s) = r
      at hl
    cases r with
    | game_over x => exact continues_trans _ _ _ _ hd hl
    | playing x =>
      exact continues_trans _ _ _ _ hd
        (continues_disc_trans false _ _ _ hl (continues_of_plain _ _ (stamp_plain env x)))
  · exact continues_of_plain _ _ (continues_plain_trans _ _ _ hd (stamp_plain env _))

theorem hard_drop_loop_plain {W : Type} (env : Env W) :
    ∀ (fuel : Nat) (s t : State W), hard_drop_loop env fuel s = some t →
      continues all_plain s t
  | 0, s, t, h => by simp [hard_drop_loop] at h
  | fuel + 1, s, t, h => by
    have h1 := called_plain (env.attempt_drop_block_one_row s.world).2
      (Call.attempt_drop_block_one_row (env.attempt_drop_block_one_row s.world).1) s rfl
    have h2 := fun x : State W => called_plain (env.attempt_drop_block_one_row x.world).2
      (Call.attempt_drop_block_one_row (env.attempt_drop_block_one_row x.world).1) x rfl
    unfold hard_drop_loop at h
    dsimp only at h
    split_ifs at h
    · exact continues_plain_trans _ _ _ (continues_plain_trans _ _ _ h1 (h2 _))
        (hard_drop_loop_plain env fuel _ t h)
    · cases h
      exact h1

theorem hard_drop_discipline {W : Type} (env : Env W) (fuel : Nat) (s : State W)
    (o : Outcome W) (h : hard_drop env fuel s = some o) :
    continues (lock_discipline o.exited) s o.state := by
  unfold hard_drop at h
  cases hl : hard_drop_loop env fuel s with
  | none => simp [hl] at h
  | some t =>
    have hp := hard_drop_loop_plain env fuel s t hl
    have hk := lock_and_spawn_discipline env t
    rw [hl] at h
    dsimp only at h
    generalize lock_and_spawn env t = r at hk h
    cases r with
    | game_over x =>
      cases h
      exact continues_trans _ _ _ _ hp hk
    | playing x =>
      cases h
      exact continues_trans _ _ _ _ hp
        (continues_disc_trans false _ _ _ hk (continues_of_plain _ _ (stamp_plain env x)))

theorem dispatch_discipline {W : Type} (env : Env W) (fuel : Nat) (i : Input) (s : State W)
    (o : Outcome W) (h : dispatch env fuel i s = some o) :
    continues (lock_discipline o.exited) s o.state := by
  unfold dispatch run_action at h
  cases ha : selected_action i <;> rw [ha] at h <;> dsimp only at h
  · cases h
    exact continues_of_plain _ _ (called_plain _ _ s rfl)
  · cases h
    exact continues_of_plain _ _ (called_plain _ _ s rfl)
  · cases h
    exact continues_of_plain _ _ (called_plain _ _ s rfl)
  · cases h
    exact drop_one_row_or_lock_discipline env s
  · exact hard_drop_discipline env fuel s o h
  · cases h
    exact continues_of_plain _ _ (continues_refl s)

theorem process_input_discipline {W : Type} (env : Env W) (fuel : Nat) (i : Input)
    (s : State W) (o : Outcome W) (h : process_input env fuel i s = some o) :
    continues (lock_discipline o.exited) s o.state := by
  unfold process_input at h
  cases hd : dispatch env fuel i s with
  | none => simp [hd] at h
  | some d =>
    have hc := dispatch_discipline env fuel i s d hd
    rw [hd] at h
    cases d with
    | game_over x =>
      cases h
      exact hc
    | playing x =>
      cases h
      exact continues_disc_trans false _ _ _ hc
        (continues_of_plain _ _ (handle_new_game_plain env i x))

theorem gravity_discipline {W : Type} (env : Env W) (sf : Nat) (s : State W) :
    continues (lock_discipline (gravity env sf s).exited) s (gravity env sf s).state := by
  have h1 := called_plain (env.get_clock_ticks s.world).2
    (Call.get_clock_ticks ((env.get_clock_ticks s.world).1 % U32)) s rfl
  unfold gravity
  dsimp only
  split_ifs
  · exact continues_trans _ _ _ _ h1 (drop_one_row_or_lock_discipline env _)
  · exact continues_of_plain _ _ h1

/-- Every completed iteration obeys the lock discipline. -/
theorem loop_body_discipline {W : Type} (env : Env W) (fuel : Nat) (s : State W)
    (o : Outcome W) (h : loop_body env fuel s = some o) :
    continues (lock_discipline o.exited) s o.state := by
  have h0 := continues_plain_trans _ _ _ (read_clock_plain env s)
    (poll_input_plain env (read_clock env s))
  unfold loop_body at h
  dsimp only at h
  cases hp : process_input env fuel (poll_input env (read_clock env s)).1
      (poll_input env (read_clock env s)).2 with
  | none => simp [hp] at h
  | some d =>
    have hc := process_input_discipline env fuel _ _ d hp
    rw [hp] at h
    cases d with
    | game_over x =>
      cases h
      exact continues_trans _ _ _ _ h0 hc
    | playing x =>
      cases h
      exact continues_trans _ _ _ _ h0
        (continues_disc_trans _ _ _ _ hc (gravity_discipline env _ x))

/-- On a board where the piece falls as a height measure says, an iteration
with more fuel than the height at the polling step completes. -/
theorem loop_body_returns {W : Type} (env : Env W) (h : W → Nat) (hf : falls_by env h)
    (fuel : Nat) (s : State W) (hfuel : h (poll_input env (read_clock env s)).2.world < fuel) :
    ∃ o, loop_body env fuel s = some o := by
  have hd : ∃ d, dispatch env fuel (poll_input env (read_clock env s)).1
      (poll_input env (read_clock env s)).2 = some d := by
    unfold dispatch run_action
    cases selected_action (poll_input env (read_clock env s)).1 <;> dsimp only
    · exact ⟨_, rfl⟩
    · exact ⟨_, rfl⟩
    · exact ⟨_, rfl⟩
    · exact ⟨_, rfl⟩
    · obtain ⟨t, e, _⟩ := hard_drop_loop_falls env h hf _ fuel
        (poll_input env (read_clock env s)).2 rfl hfuel
      unfold hard_drop
      rw [e]
      dsimp only
      cases lock_and_spawn env t <;> exact ⟨_, rfl⟩
    · exact ⟨_, rfl⟩
  obtain ⟨d, hd⟩ := hd
  unfold loop_body process_input
  dsimp only
  rw [hd]
  cases d <;> exact ⟨_, rfl⟩

/-! ## C10 -/

/-- C10: on a board where the piece falls as a height measure says, an
iteration completes, and it leaves the loop exactly when one of its
lock-and-spawn calls returned failure; that call is then the last call of the
iteration (nothing after it runs, the timer check included), and the iteration
made as many score increments as it had successful lock-and-spawn calls, so no
increment belongs to the failed lock. -/
theorem game_over_iff_lock_fails {W : Type} (env : Env W) (h : W → Nat)
    (hf : falls_by env h) (fuel : Nat) (s : State W)
    (hfuel : h (poll_input env (read_clock env s)).2.world < fuel) :
    ∃ o, loop_body env fuel s = some o ∧
      (o.exited = true ↔
        Call.fix_block_to_board_and_add_new_block false ∈ new_calls s o.state) ∧
      (o.exited = true → (new_calls s o.state).getLast? =
        some (Call.fix_block_to_board_and_add_new_block false)) ∧
      (new_calls s o.state).countP Call.is_score =
        (new_calls s o.state).count (Call.fix_block_to_board_and_add_new_block true) := by
  obtain ⟨o, ho⟩ := loop_body_returns env h hf fuel s hfuel
  obtain ⟨l, e, p⟩ := loop_body_discipline env fuel s o ho
  rw [← new_calls_append s o.state l e] at p
  exact ⟨o, ho, p⟩

theorem game_over_iff_lock_fails_witness :
    ∃ o, loop_body simEnv 4 (simState 5 0 0 ⟨0, [], [32], 2, false⟩) = some o ∧
      (o.exited = true ↔ Call.fix_block_to_board_and_add_new_block false ∈
        new_calls (simState 5 0 0 ⟨0, [], [32], 2, false⟩) o.state) ∧
      (o.exited = true → (new_calls (simState 5 0 0 ⟨0, [], [32], 2, false⟩) o.state).getLast? =
        some (Call.fix_block_to_board_and_add_new_block false)) ∧
      (new_calls (simState 5 0 0 ⟨0, [], [32], 2, false⟩) o.state).countP Call.is_score =
        (new_calls (simState 5 0 0 ⟨0, [], [32], 2, false⟩) o.state).count
          (Call.fix_block_to_board_and_add_new_block true) :=
  game_over_iff_lock_fails simEnv Sim.height simEnv_falls 4
    (simState 5 0 0 ⟨0, [], [32], 2, false⟩) (by decide)


/-! ## C11 -/

/-- C11: after `init_score` the score read is 0; after `add_to_score d` with a
16-bit `d` it is the old score plus `d` modulo `2^32`, hence not smaller than
before whenever the sum fits in 32 bits; and the row counter behaves the
same. -/
theorem counter_contract {W : Type} (s : State W) (d : Nat) (hd : d < U16) :
    get_score (init_score s) = 0 ∧
    get_score (add_to_score d s) = (get_score s + d) % U32 ∧
    (get_score s + d < U32 → get_score s ≤ get_score (add_to_score d s)) ∧
    get_row (init_row s) = 0 ∧
    get_row (add_to_row d s) = (get_row s + d) % U32 ∧
    (get_row s + d < U32 → get_row s ≤ get_row (add_to_row d s)) := by
  have e : d % U16 = d := Nat.mod_eq_of_lt hd
  refine ⟨rfl, ?_, ?_, rfl, ?_, ?_⟩
  · simp [get_score, add_to_score, e]
  · intro h
    simp only [get_score, add_to_score, e] at h ⊢
    rw [Nat.mod_eq_of_lt h]
    exact Nat.le_add_right _ _
  · simp [get_row, add_to_row, e]
  · intro h
    simp only [get_row, add_to_row, e] at h ⊢
    rw [Nat.mod_eq_of_lt h]
    exact Nat.le_add_right _ _

theorem counter_contract_witness :
    get_score (init_score midSession) = 0 ∧
    get_score (add_to_score 65535 midSession) = (get_score midSession + 65535) % U32 ∧
    (get_score midSession + 65535 < U32 →
      get_score midSession ≤ get_score (add_to_score 65535 midSession)) ∧
    get_row (init_row midSession) = 0 ∧
    get_row (add_to_row 65535 midSession) = (get_row midSession + 65535) % U32 ∧
    (get_row midSession + 65535 < U32 →
      get_row midSession ≤ get_row (add_to_row 65535 midSession)) :=
  counter_contract midSession 65535 (by decide)

/-! ## C12 -/

/-- C12: with the parser Idle and no button pushed, a byte other than ESC
leaves the parser Idle and is passed through raw: a space selects the hard
drop, `n` and `N` request a new game, and every other byte (the letters
`A`..`D` and the bracket included) selects no action and no new game. -/
theorem raw_byte_in_idle {W : Type} (env : Env W) (s : State W) (b : Int)
    (hb0 : 0 ≤ b) (hb1 : b < 256) (hne : b ≠ 27)
    (hc : s.characters_into_escape_sequence = 0) (h : serial_byte_read env s b) :
    (poll_input env s).2.characters_into_escape_sequence = 0 ∧
    (poll_input env s).1 = ⟨-1, toChar b, -1⟩ ∧
    selected_action (poll_input env s).1 =
      (if b = 32 then Action.hard_drop else Action.none) ∧
    new_game_requested (poll_input env s).1 = decide (b = 110 ∨ b = 78) := by
  obtain ⟨hi, hs⟩ := poll_input_byte env s b h
  have h27 : ¬ toChar b = 27 := fun e => hne ((toChar_byte b hb0 hb1 27 (by decide) (by decide)).1 e)
  have h32 := toChar_byte b hb0 hb1 32 (by decide) (by decide)
  have h110 := toChar_byte b hb0 hb1 110 (by decide) (by decide)
  have h78 := toChar_byte b hb0 hb1 78 (by decide) (by decide)
  simp only [hc, h27, and_false, if_false, false_and,
    show ¬ (0 : Nat) = 1 by decide, show ¬ (0 : Nat) = 2 by decide] at hi hs
  refine ⟨hs, hi, ?_, ?_⟩
  · rw [hi]
    unfold selected_action
    simp [h32]
  · rw [hi]
    unfold new_game_requested
    simp [h110, h78]

theorem raw_byte_in_idle_witness :
    (poll_input simEnv (simState 0 0 0 ⟨0, [], [68], 2, true⟩)).2.characters_into_escape_sequence
        = 0 ∧
    (poll_input simEnv (simState 0 0 0 ⟨0, [], [68], 2, true⟩)).1 = ⟨-1, toChar 68, -1⟩ ∧
    selected_action (poll_input simEnv (simState 0 0 0 ⟨0, [], [68], 2, true⟩)).1 =
      (if (68 : Int) = 32 then Action.hard_drop else Action.none) ∧
    new_game_requested (poll_input simEnv (simState 0 0 0 ⟨0, [], [68], 2, true⟩)).1 =
      decide ((68 : Int) = 110 ∨ (68 : Int) = 78) :=
  raw_byte_in_idle simEnv (simState 0 0 0 ⟨0, [], [68], 2, true⟩) 68
    (by decide) (by decide) (by decide) rfl ⟨rfl, rfl, rfl⟩

/-! ## C13 -/

/-- C13: the speed factor does not increase with the score, and it is always
one of 600, 500, 450, 350, 300, 200. -/
theorem speed_factor_antitone {W : Type} (s1 s2 : State W)
    (h : get_score s1 ≤ get_score s2) :
    speed_factor s2 ≤ speed_factor s1 ∧
    (speed_factor s1 = 600 ∨ speed_factor s1 = 500 ∨ speed_factor s1 = 450 ∨
      speed_factor s1 = 350 ∨ speed_factor s1 = 300 ∨ speed_factor s1 = 200) := by
  unfold speed_factor
  simp only [ge_iff_le]
  constructor
  · split_ifs <;> omega
  · split_ifs <;> simp

theorem speed_factor_antitone_witness :
    speed_factor (simState 1999 0 0 ⟨0, [], [], 0, true⟩) ≤
        speed_factor (simState 999 0 0 ⟨0, [], [], 0, true⟩) ∧
    (speed_factor (simState 999 0 0 ⟨0, [], [], 0, true⟩) = 600 ∨
      speed_factor (simState 999 0 0 ⟨0, [], [], 0, true⟩) = 500 ∨
      speed_factor (simState 999 0 0 ⟨0, [], [], 0, true⟩) = 450 ∨
      speed_factor (simState 999 0 0 ⟨0, [], [], 0, true⟩) = 350 ∨
      speed_factor (simState 999 0 0 ⟨0, [], [], 0, true⟩) = 300 ∨
      speed_factor (simState 999 0 0 ⟨0, [], [], 0, true⟩) = 200) :=
  speed_factor_antitone (simState 999 0 0 ⟨0, [], [], 0, true⟩)
    (simState 1999 0 0 ⟨0, [], [], 0, true⟩) (by decide)

/-! ## C14 -/

/-- C14: dispatching a move-left, move-right or rotate event, whatever the board
engine answers, makes exactly one call, which is not a lock-and-spawn, keeps
the loop playing, and leaves the score, the row count, the last drop time and
the parser counter unchanged. -/
theorem move_rotate_frame {W : Type} (env : Env W) (fuel : Nat) (i : Input) (s : State W)
    (h : selected_action i = Action.move_left ∨ selected_action i = Action.move_right ∨
      selected_action i = Action.rotate) :
    ∃ t, dispatch env fuel i s = some (Outcome.playing t) ∧
      get_score t = get_score s ∧ get_row t = get_row s ∧
      t.last_drop_time = s.last_drop_time ∧
      t.characters_into_escape_sequence = s.characters_into_escape_sequence ∧
      (new_calls s t).length = 1 ∧ (new_calls s t).countP Call.is_lock = 0 := by
  rcases h with h | h | h
  · refine ⟨do_move env Move.MOVE_LEFT s, by simp [dispatch, h, run_action], rfl, rfl, rfl,
      rfl, ?_, ?_⟩ <;> simp [new_calls, do_move, called, Call.is_lock, List.countP_cons]
  · refine ⟨do_move env Move.MOVE_RIGHT s, by simp [dispatch, h, run_action], rfl, rfl, rfl,
      rfl, ?_, ?_⟩ <;> simp [new_calls, do_move, called, Call.is_lock, List.countP_cons]
  · refine ⟨do_rotation env s, by simp [dispatch, h, run_action], rfl, rfl, rfl,
      rfl, ?_, ?_⟩ <;> simp [new_calls, do_rotation, called, Call.is_lock, List.countP_cons]

theorem move_rotate_frame_witness :
    ∃ t, dispatch simEnv 0 ⟨-1, -1, 68⟩ midSession = some (Outcome.playing t) ∧
      get_score t = get_score midSession ∧ get_row t = get_row midSession ∧
      t.last_drop_time = midSession.last_drop_time ∧
      t.characters_into_escape_sequence = midSession.characters_into_escape_sequence ∧
      (new_calls midSession t).length = 1 ∧
      (new_calls midSession t).countP Call.is_lock = 0 :=
  move_rotate_frame simEnv 0 ⟨-1, -1, 68⟩ midSession (Or.inl rfl)

/-! ## C19 -/

/-- C19: `init_score` and `add_to_score` leave the value of `get_row` as it
was, and `init_row` and `add_to_row` leave the value of `get_score` as it was,
for every state and delta; `init_score` does not reset the row count. -/
theorem counters_independent {W : Type} (s : State W) (d : Nat) :
    get_row (init_score s) = get_row s ∧
    get_row (add_to_score d s) = get_row s ∧
    get_score (init_row s) = get_score s ∧
    get_score (add_to_row d s) = get_score s :=
  ⟨rfl, rfl, rfl, rfl⟩


/-! ## C15 -/

/-- C15 (the code at the failing input): a space read in Idle on a piece three
rows above its resting position.  The iteration makes five one-row drop
attempts, three successful and two failing, before the lock-and-spawn call: the
failing fourth attempt is the one in the loop body, whose result is ignored,
and the loop condition then makes a fifth. -/
theorem hard_drop_three_rows_five_attempts :
    ∃ o, loop_body simEnv 5 threeUp = some o ∧
      (new_calls threeUp o.state).take 10 =
        [Call.get_clock_ticks 0, Call.button_pushed (-1), Call.serial_input_available true,
          Call.fgetc 32,
          Call.attempt_drop_block_one_row true, Call.attempt_drop_block_one_row true,
          Call.attempt_drop_block_one_row true, Call.attempt_drop_block_one_row false,
          Call.attempt_drop_block_one_row false,
          Call.fix_block_to_board_and_add_new_block true] ∧
      (new_calls threeUp o.state).countP Call.is_drop = 5 :=
  ⟨_, rfl, by decide, by decide⟩

/-! ## C20 -/

/-- C20: on a board where the piece is `k` rows above its resting position and
a failed attempt changes nothing, the hard-drop loop ends (with fuel above
`k`), having made only drop attempts, at most `k + 2` of them, and the
hard-drop arm then makes its lock-and-spawn call, exactly one. -/
theorem hard_drop_loop_terminates {W : Type} (env : Env W) (h : W → Nat)
    (hf : falls_by env h) (k fuel : Nat) (s : State W) (hk : h s.world = k)
    (hfuel : k < fuel) :
    ∃ t, hard_drop_loop env fuel s = some t ∧
      (new_calls s t).length ≤ k + 2 ∧
      (∀ c ∈ new_calls s t, c.is_drop = true) ∧
      ∃ o, hard_drop env fuel s = some o ∧
        (new_calls t o.state).head? =
          some (Call.fix_block_to_board_and_add_new_block (!o.exited)) ∧
        (new_calls s o.state).countP Call.is_lock = 1 := by
  obtain ⟨t, e, _, ttr, _, _, _, _⟩ := hard_drop_loop_falls env h hf k fuel s hk hfuel
  have hn := new_calls_append s t _ ttr
  refine ⟨t, e, ?_, ?_, ?_⟩
  · rw [hn]
    simp only [List.length_append, List.length_replicate]
    have := Nat.mod_lt k (show 0 < 2 by decide)
    omega
  · rw [hn]
    intro c m
    rcases List.mem_append.1 m with m | m <;> rw [List.eq_of_mem_replicate m] <;> rfl
  · have hcount : ∀ rest : List Call, rest.countP Call.is_lock = 1 →
        ((List.replicate k (Call.attempt_drop_block_one_row true) ++
          List.replicate (1 + k % 2) (Call.attempt_drop_block_one_row false)) ++
            rest).countP Call.is_lock = 1 := by
      intro rest hr
      rw [List.countP_append, List.countP_append, hr]
      have z : ∀ (n : Nat) (b : Bool),
          (List.replicate n (Call.attempt_drop_block_one_row b)).countP Call.is_lock = 0 := by
        intro n b
        rw [List.countP_eq_zero]
        intro c m
        rw [List.eq_of_mem_replicate m]
        simp [Call.is_lock]
      rw [z, z]
    rcases hfx : env.fix_block_to_board_and_add_new_block t.world with ⟨f, v⟩
    cases f
    · refine ⟨Outcome.game_over (called v (Call.fix_block_to_board_and_add_new_block false) t),
        ?_, ?_, ?_⟩
      · simp [hard_drop, e, lock_and_spawn, hfx]
      · simp [new_calls, Outcome.state, Outcome.exited, called]
      · rw [new_calls_append s _ ((List.replicate k (Call.attempt_drop_block_one_row true) ++
            List.replicate (1 + k % 2) (Call.attempt_drop_block_one_row false)) ++
            [Call.fix_block_to_board_and_add_new_block false])
          (by simp [Outcome.state, called, ttr])]
        exact hcount _ (by simp [Call.is_lock, List.countP_cons])
    · refine ⟨Outcome.playing (stamp_last_drop_time env (print_score_and_rows env (score_one
          (called v (Call.fix_block_to_board_and_add_new_block true) t)))), ?_, ?_, ?_⟩
      · simp [hard_drop, e, lock_and_spawn, hfx]
      · simp [new_calls, Outcome.state, Outcome.exited, called, stamp_last_drop_time,
          print_score_and_rows, effect, score_one, add_to_score]
      · rw [new_calls_append s _ ((List.replicate k (Call.attempt_drop_block_one_row true) ++
            List.replicate (1 + k % 2) (Call.attempt_drop_block_one_row false)) ++
            [Call.fix_block_to_board_and_add_new_block true, Call.add_to_score 1,
              Call.hide_cursor, Call.move_cursor 50 3,
              Call.printf_score ((t.score + 1) % U32), Call.move_cursor 50 5,
              Call.printf_rows t.row_number,
              Call.get_clock_ticks (stamp_last_drop_time env (print_score_and_rows env
                (score_one (called v (Call.fix_block_to_board_and_add_new_block true)
                  t)))).last_drop_time])
          (by simp [Outcome.state, called, ttr, stamp_last_drop_time, print_score_and_rows,
            effect, score_one, add_to_score, get_score, get_row, U16])]
        exact hcount _ (by simp [Call.is_lock, List.countP_cons])

theorem hard_drop_loop_terminates_witness :
    ∃ t, hard_drop_loop simEnv 4 threeUp = some t ∧
      (new_calls threeUp t).length ≤ 3 + 2 ∧
      (∀ c ∈ new_calls threeUp t, c.is_drop = true) ∧
      ∃ o, hard_drop simEnv 4 threeUp = some o ∧
        (new_calls t o.state).head? =
          some (Call.fix_block_to_board_and_add_new_block (!o.exited)) ∧
        (new_calls threeUp o.state).countP Call.is_lock = 1 :=
  hard_drop_loop_terminates simEnv Sim.height simEnv_falls 3 4 threeUp rfl (by decide)

/-! ## C17 -/

/-- C17: a dispatched soft drop (no button, terminator `B`) that does not leave
the loop ends with a clock read whose value becomes the last drop time; the
read comes after the drop attempt, directly when the attempt succeeded and
after the lock-and-spawn and the display refresh when it failed, and it is the
only clock read of the dispatch. -/
theorem soft_drop_stamps_timer {W : Type} (env : Env W) (fuel : Nat) (i : Input)
    (s : State W) (hb : i.button = -1) (he : i.escape_sequence_char = 66) :
    ∃ o, dispatch env fuel i s = some o ∧
      ∀ t, o = Outcome.playing t →
        ∃ r mid, new_calls s t = Call.attempt_drop_block_one_row r ::
            (mid ++ [Call.get_clock_ticks t.last_drop_time]) ∧
          (∀ c ∈ mid, ∀ v, c ≠ Call.get_clock_ticks v) ∧
          (r = true → mid = []) ∧
          (r = false → mid.head? = some (Call.fix_block_to_board_and_add_new_block true)) := by
  have ha : selected_action i = Action.soft_drop := by
    unfold selected_action
    simp [hb, he]
  refine ⟨drop_one_row_or_lock env s, by simp [dispatch, ha, run_action], ?_⟩
  intro t ht
  rcases drop_one_row_or_lock_cases env s with ⟨w, _, e⟩ | ⟨w, v, _, _, e⟩ | ⟨w, v, _, _, e⟩
  · rw [e] at ht
    cases ht
    refine ⟨true, [], ?_, ?_, fun _ => rfl, fun h => Bool.noConfusion h⟩
    · simp [new_calls, stamp_last_drop_time, called]
    · intro c m
      cases m
  · rw [e] at ht
    cases ht
  · rw [e] at ht
    cases ht
    refine ⟨false, [Call.fix_block_to_board_and_add_new_block true, Call.add_to_score 1,
        Call.hide_cursor, Call.move_cursor 50 3, Call.printf_score ((s.score + 1) % U32),
        Call.move_cursor 50 5, Call.printf_rows s.row_number], ?_, ?_,
      fun h => Bool.noConfusion h, fun _ => rfl⟩
    · simp [new_calls, stamp_last_drop_time, called, print_score_and_rows, effect, score_one,
        add_to_score, get_score, get_row, U16]
    · intro c m v
      simp only [List.mem_cons, List.mem_singleton, List.not_mem_nil, or_false] at m
      rcases m with m | m | m | m | m | m | m <;> rw [m] <;> simp

theorem soft_drop_stamps_timer_witness :
    ∃ o, dispatch simEnv 0 ⟨-1, -1, 66⟩ (simState 0 0 0 ⟨900, [], [], 0, true⟩) = some o ∧
      ∀ t, o = Outcome.playing t →
        ∃ r mid, new_calls (simState 0 0 0 ⟨900, [], [], 0, true⟩) t =
            Call.attempt_drop_block_one_row r ::
              (mid ++ [Call.get_clock_ticks t.last_drop_time]) ∧
          (∀ c ∈ mid, ∀ v, c ≠ Call.get_clock_ticks v) ∧
          (r = true → mid = []) ∧
          (r = false → mid.head? = some (Call.fix_block_to_board_and_add_new_block true)) :=
  soft_drop_stamps_timer simEnv 0 ⟨-1, -1, 66⟩ (simState 0 0 0 ⟨900, [], [], 0, true⟩) rfl rfl


/-! ## The score follows the successful locks -/

theorem tracks_of_plain {W : Type} (s t : State W) (h : continues all_plain s t)
    (hs : t.score = s.score) : tracks 0 s t := by
  obtain ⟨l, e, p⟩ := h
  have hz : l.count (Call.fix_block_to_board_and_add_new_block true) = 0 := by
    rw [List.count_eq_zero]
    intro m
    have := p _ m
    simp [Call.is_plain, Call.is_lock] at this
  refine ⟨l, e, by rw [hz], fun hlt => ?_⟩
  rw [hz, hs, Nat.add_zero, Nat.mod_eq_of_lt hlt]

theorem tracks_trans {W : Type} (n m : Nat) (s t u : State W) (h1 : tracks n s t)
    (h2 : tracks m t u) : tracks (n + m) s u := by
  obtain ⟨l1, e1, b1, p1⟩ := h1
  obtain ⟨l2, e2, b2, p2⟩ := h2
  refine ⟨l1 ++ l2, by rw [e2, e1, List.append_assoc], ?_, fun hlt => ?_⟩
  · rw [List.count_append]
    omega
  · have ht := p1 hlt
    have hu := p2 (by rw [ht]; exact Nat.mod_lt _ (by decide))
    rw [hu, ht, List.count_append, Nat.mod_add_mod, Nat.add_assoc]

theorem tracks_mono {W : Type} (n m : Nat) (s t : State W) (hnm : n ≤ m)
    (h : tracks n s t) : tracks m s t := by
  obtain ⟨l, e, b, p⟩ := h
  exact ⟨l, e, le_trans b hnm, p⟩

theorem lock_and_spawn_tracks {W : Type} (env : Env W) (s : State W) :
    tracks 1 s (lock_and_spawn env s).state := by
  rcases hf : env.fix_block_to_board_and_add_new_block s.world with ⟨f, v⟩
  cases f
  · have e : lock_and_spawn env s =
        Outcome.game_over (called v (Call.fix_block_to_board_and_add_new_block false) s) := by
      simp [lock_and_spawn, hf]
    rw [e]
    refine ⟨[Call.fix_block_to_board_and_add_new_block false], rfl, by simp, fun hlt => ?_⟩
    simp [Outcome.state, called, Nat.mod_eq_of_lt hlt]
  · have e : lock_and_spawn env s = Outcome.playing (print_score_and_rows env
        (score_one (called v (Call.fix_block_to_board_and_add_new_block true) s))) := by
      simp [lock_and_spawn, hf]
    rw [e]
    refine ⟨[Call.fix_block_to_board_and_add_new_block true, Call.add_to_score 1,
        Call.hide_cursor, Call.move_cursor 50 3, Call.printf_score ((s.score + 1) % U32),
        Call.move_cursor 50 5, Call.printf_rows s.row_number], ?_, ?_, fun _ => ?_⟩
    · simp [Outcome.state, called, print_score_and_rows, effect, score_one, add_to_score,
        get_score, get_row, U16]
    · simp [List.count_cons]
    · simp [Outcome.state, called, print_score_and_rows, effect, score_one, add_to_score,
        U16, List.count_cons]

theorem stamp_tracks {W : Type} (env : Env W) (s : State W) :
    tracks 0 s (stamp_last_drop_time env s) :=
  tracks_of_plain _ _ (stamp_plain env s) rfl

theorem drop_one_row_or_lock_tracks {W : Type} (env : Env W) (s : State W) :
    tracks 1 s (drop_one_row_or_lock env s).state := by
  have hd : tracks 0 s (called (env.attempt_drop_block_one_row s.world).2
      (Call.attempt_drop_block_one_row (env.attempt_drop_block_one_row s.world).1) s) :=
    tracks_of_plain _ _ (called_plain _ _ s rfl) rfl
  unfold drop_one_row_or_lock
  dsimp only
  split_ifs
  · have hl := lock_and_spawn_tracks env
      (called (env.attempt_drop_block_one_row s.world).2
        (Call.attempt_drop_block_one_row (env.attempt_drop_block_one_row s.world).1) s)
    generalize lock_and_spawn env
      (called (env.attempt_drop_block_one_row s.world).2
        (Call.attempt_drop_block_one_row (env.attempt_drop_block_one_row s.world).1) s) = r
      at hl
    cases r with
    | game_over x => exact tracks_trans 0 1 _ _ _ hd hl
    | playing x =>
      exact tracks_trans 0 1 _ _ _ hd (tracks_trans 1 0 _ _ _ hl (stamp_tracks env x))
  · exact tracks_mono 0 1 _ _ (by decide) (tracks_trans 0 0 _ _ _ hd (stamp_tracks env _))

theorem hard_drop_loop_score {W : Type} (env : Env W) :
    ∀ (fuel : Nat) (s t : State W), hard_drop_loop env fuel s = some t → t.score = s.score
  | 0, s, t, h => by simp [hard_drop_loop] at h
  | fuel + 1, s, t, h => by
    unfold hard_drop_loop at h
    dsimp only at h
    split_ifs at h
    · exact (hard_drop_loop_score env fuel _ t h).trans rfl
    · cases h; rfl

theorem hard_drop_tracks {W : Type} (env : Env W) (fuel : Nat) (s : State W)
    (o : Outcome W) (h : hard_drop env fuel s = some o) : tracks 1 s o.state := by
  unfold hard_drop at h
  cases hl : hard_drop_loop env fuel s with
  | none => simp [hl] at h
  | some t =>
    have hp : tracks 0 s t :=
      tracks_of_plain _ _ (hard_drop_loop_plain env fuel s t hl)
        (hard_drop_loop_score env fuel s t hl)
    have hk := lock_and_spawn_tracks env t
    rw [hl] at h
    dsimp only at h
    generalize lock_and_spawn env t = r at hk h
    cases r with
    | game_over x =>
      cases h
      exact tracks_trans 0 1 _ _ _ hp hk
    | playing x =>
      cases h
      exact tracks_trans 0 1 _ _ _ hp (tracks_trans 1 0 _ _ _ hk (stamp_tracks env x))

theorem dispatch_tracks {W : Type} (env : Env W) (fuel : Nat) (i : Input) (s : State W)
    (o : Outcome W) (h : dispatch env fuel i s = some o) : tracks 1 s o.state := by
  unfold dispatch run_action at h
  cases ha : selected_action i <;> rw [ha] at h <;> dsimp only at h
  · cases h
    exact tracks_mono 0 1 _ _ (by decide) (tracks_of_plain _ _ (called_plain _ _ s rfl) rfl)
  · cases h
    exact tracks_mono 0 1 _ _ (by decide) (tracks_of_plain _ _ (called_plain _ _ s rfl) rfl)
  · cases h
    exact tracks_mono 0 1 _ _ (by decide) (tracks_of_plain _ _ (called_plain _ _ s rfl) rfl)
  · cases h
    exact drop_one_row_or_lock_tracks env s
  · exact hard_drop_tracks env fuel s o h
  · cases h
    exact tracks_mono 0 1 _ _ (by decide) (tracks_of_plain _ _ (continues_refl s) rfl)

theorem gravity_tracks {W : Type} (env : Env W) (sf : Nat) (s : State W) :
    tracks 1 s (gravity env sf s).state := by
  have h1 : tracks 0 s (called (env.get_clock_ticks s.world).2
      (Call.get_clock_ticks ((env.get_clock_ticks s.world).1 % U32)) s) :=
    tracks_of_plain _ _ (called_plain _ _ s rfl) rfl
  unfold gravity
  dsimp only
  split_ifs
  · exact tracks_trans 0 1 _ _ _ h1 (drop_one_row_or_lock_tracks env _)
  · exact tracks_mono 0 1 _ _ (by decide) h1

theorem poll_input_score {W : Type} (env : Env W) (s : State W) :
    (poll_input env s).2.score = s.score := by
  unfold poll_input
  dsimp only
  split_ifs <;> rfl

/-- An iteration without a new-game request changes the score by its
successful locks, of which there are at most two. -/
theorem loop_body_tracks {W : Type} (env : Env W) (fuel : Nat) (s : State W)
    (o : Outcome W) (hn : new_game_requested (iteration_input env s) = false)
    (h : loop_body env fuel s = some o) : tracks 2 s o.state := by
  have h0 : tracks 0 s (poll_input env (read_clock env s)).2 :=
    tracks_of_plain _ _
      (continues_plain_trans _ _ _ (read_clock_plain env s)
        (poll_input_plain env (read_clock env s)))
      ((poll_input_score env (read_clock env s)).trans rfl)
  unfold iteration_input at hn
  unfold loop_body process_input at h
  dsimp only at h
  cases hd : dispatch env fuel (poll_input env (read_clock env s)).1
      (poll_input env (read_clock env s)).2 with
  | none => simp [hd] at h
  | some d =>
    have hc := dispatch_tracks env fuel _ _ d hd
    rw [hd] at h
    cases d with
    | game_over x =>
      cases h
      exact tracks_mono 1 2 _ _ (by decide) (tracks_trans 0 1 _ _ _ h0 hc)
    | playing x =>
      dsimp only at h
      cases h
      have hx : handle_new_game env (poll_input env (read_clock env s)).1 x = x := by
        simp [handle_new_game, hn]
      rw [hx]
      exact tracks_trans 0 2 _ _ _ h0 (tracks_trans 1 1 _ _ _ hc (gravity_tracks env _ x))

/-! ## C16 -/

/-- C16: on a board where the piece falls as a height measure says, an
iteration that starts with a 32-bit score and requests no new game completes,
and if it does not leave the loop its score is the score before plus the number
of successful lock-and-spawn calls of the iteration, modulo `2^32`; that number
is at most two. -/
theorem score_follows_locks {W : Type} (env : Env W) (h : W → Nat) (hf : falls_by env h)
    (fuel : Nat) (s : State W)
    (hfuel : h (poll_input env (read_clock env s)).2.world < fuel)
    (hs : get_score s < U32)
    (hn : new_game_requested (iteration_input env s) = false) :
    ∃ o, loop_body env fuel s = some o ∧
      (o.exited = false →
        get_score o.state = (get_score s + (new_calls s o.state).count
          (Call.fix_block_to_board_and_add_new_block true)) % U32 ∧
        (new_calls s o.state).count (Call.fix_block_to_board_and_add_new_block true) ≤ 2) := by
  obtain ⟨o, ho⟩ := loop_body_returns env h hf fuel s hfuel
  obtain ⟨l, e, b, p⟩ := loop_body_tracks env fuel s o hn ho
  rw [← new_calls_append s o.state l e] at b p
  exact ⟨o, ho, fun _ => ⟨p hs, b⟩⟩

theorem score_follows_locks_witness :
    ∃ o, loop_body simEnv 4 (simState 4294967295 0 0 ⟨700, [], [32], 2, true⟩) = some o ∧
      (o.exited = false →
        get_score o.state =
          (get_score (simState 4294967295 0 0 ⟨700, [], [32], 2, true⟩) +
            (new_calls (simState 4294967295 0 0 ⟨700, [], [32], 2, true⟩) o.state).count
              (Call.fix_block_to_board_and_add_new_block true)) % U32 ∧
        (new_calls (simState 4294967295 0 0 ⟨700, [], [32], 2, true⟩) o.state).count
          (Call.fix_block_to_board_and_add_new_block true) ≤ 2) :=
  score_follows_locks simEnv Sim.height simEnv_falls 4
    (simState 4294967295 0 0 ⟨700, [], [32], 2, true⟩) (by decide) (by decide) rfl


/-! ## C18 -/

/-- One polling step on a counter that is at most 2: at most one byte is
consumed, the counter moves only when one is, it moves by one transition (up by
one, or back to 0), and it stays at most 2. -/
theorem poll_input_counter {W : Type} (env : Env W) (s : State W)
    (hc : s.characters_into_escape_sequence ≤ 2) :
    (new_calls s (poll_input env s).2).countP Call.is_fgetc ≤ 1 ∧
    ((poll_input env s).2.characters_into_escape_sequence ≠
        s.characters_into_escape_sequence →
      (new_calls s (poll_input env s).2).countP Call.is_fgetc = 1) ∧
    ((poll_input env s).2.characters_into_escape_sequence =
        s.characters_into_escape_sequence ∨
      (poll_input env s).2.characters_into_escape_sequence =
        s.characters_into_escape_sequence + 1 ∨
      (poll_input env s).2.characters_into_escape_sequence = 0) ∧
    (poll_input env s).2.characters_into_escape_sequence ≤ 2 := by
  unfold poll_input
  dsimp only
  split_ifs with h1 h2 h3 h4
  · have e : s.characters_into_escape_sequence = 0 := h3.1
    simp [new_calls, called, Call.is_fgetc, List.countP_cons, e, U8]
  · have e : s.characters_into_escape_sequence = 1 := h4.1
    simp [new_calls, called, Call.is_fgetc, List.countP_cons, e, U8]
  · simp [new_calls, called, Call.is_fgetc, List.countP_cons]
  · simp [new_calls, called, Call.is_fgetc, List.countP_cons]
  · simpa [new_calls, called, Call.is_fgetc, List.countP_cons] using hc
  · simpa [new_calls, called, Call.is_fgetc, List.countP_cons] using hc

/-- The parser counter is at most 2 in every state the loop reaches. -/
theorem iterate_loop_counter {W : Type} (env : Env W) (fuel : Nat) :
    ∀ (n : Nat) (s : State W) (o : Outcome W), s.characters_into_escape_sequence ≤ 2 →
      iterate_loop env fuel n s = some o → o.state.characters_into_escape_sequence ≤ 2
  | 0, s, o, hc, h => by
    simp only [iterate_loop, Option.some.injEq] at h
    rw [← h]
    exact hc
  | n + 1, s, o, hc, h => by
    have hp := (poll_input_counter env (read_clock env s) hc).2.2.2
    unfold iterate_loop at h
    cases hb : loop_body env fuel s with
    | none => simp [hb] at h
    | some d =>
      have hd := loop_body_cies env fuel s d hb
      rw [hb] at h
      cases d with
      | game_over x =>
        dsimp only at h
        cases h
        rw [hd]
        exact hp
      | playing x =>
        dsimp only at h
        exact iterate_loop_counter env fuel n x o (le_trans (le_of_eq hd) hp) h

/-- C18: in every state that `play_game` reaches after any number of loop
iterations the parser counter is 0, 1 or 2; the polling step of the next
iteration consumes at most one serial byte, changes the counter only if it
consumed one, and then by one transition (one up, or back to 0); and a byte
consumed while the counter is 2 returns it to 0. -/
theorem parser_counter_invariant {W : Type} (env : Env W) (fuel n : Nat) (s0 : State W)
    (o : Outcome W) (hrun : iterate_loop env fuel n (play_game_enter env s0) = some o) :
    o.state.characters_into_escape_sequence ≤ 2 ∧
    (new_calls (read_clock env o.state) (poll_input env (read_clock env o.state)).2).countP
      Call.is_fgetc ≤ 1 ∧
    ((poll_input env (read_clock env o.state)).2.characters_into_escape_sequence ≠
        o.state.characters_into_escape_sequence →
      (new_calls (read_clock env o.state) (poll_input env (read_clock env o.state)).2).countP
        Call.is_fgetc = 1) ∧
    ((poll_input env (read_clock env o.state)).2.characters_into_escape_sequence =
        o.state.characters_into_escape_sequence ∨
      (poll_input env (read_clock env o.state)).2.characters_into_escape_sequence =
        o.state.characters_into_escape_sequence + 1 ∨
      (poll_input env (read_clock env o.state)).2.characters_into_escape_sequence = 0) ∧
    (∀ b, o.state.characters_into_escape_sequence = 2 → byte_arrives env o.state b →
      (poll_input env (read_clock env o.state)).2.characters_into_escape_sequence = 0) := by
  have hc : o.state.characters_into_escape_sequence ≤ 2 :=
    iterate_loop_counter env fuel n _ o (Nat.zero_le 2) hrun
  obtain ⟨a, b, c, _⟩ := poll_input_counter env (read_clock env o.state) hc
  refine ⟨hc, a, b, c, ?_⟩
  intro byte h2 hb
  have e2 : (read_clock env o.state).characters_into_escape_sequence = 2 := h2
  rw [(poll_input_byte env (read_clock env o.state) byte hb).2, e2]
  simp

theorem parser_counter_invariant_witness :
    ∃ o, iterate_loop simEnv 5 2 (play_game_enter simEnv escSample1) = some o ∧
      o.state.characters_into_escape_sequence = 2 ∧
      (∀ b, o.state.characters_into_escape_sequence = 2 → byte_arrives simEnv o.state b →
        (poll_input simEnv (read_clock simEnv o.state)).2.characters_into_escape_sequence
          = 0) :=
  ⟨_, rfl, rfl, (parser_counter_invariant simEnv 5 2 escSample1 _ rfl).2.2.2.2⟩


end Tetris
